import Mathlib

/-!
Formal model of the `scene_validator` tool (media-automation toolkit).

The Python sources embedded here are:
  * `src/tools/scene_validator/src/validator.py` — `SceneValidator.validate_scene`,
    `SceneValidator.validate_project`, `SceneValidator.generate_report`,
    `SceneValidator._generate_html_report`;
  * `src/tools/scene_validator/src/gemini_integration.py` — `GeminiAnalyzer`;
  * `src/tools/scene_validator/src/trigger.py` — `SceneValidatorTrigger.watch_directories`.

JSON-derived Python values are modelled by the inductive type `JValue`.
Python numbers are modelled exactly: `int` by `JValue.int`, and floats that
carry a finite decimal representation by `JValue.dec m e` (value `m / 10^e`,
printed with `e` digits after the decimal point, so `dec 9 1` is `0.9` and
`dec 10 1` is `1.0`).  Exponent-notation float literals are outside the model.
The wall clock (`datetime.now().isoformat()`) is passed in explicitly as a
`now : String` argument, and the network is passed in as an oracle function,
so that every embedded operation is a pure total function.
-/

/-- A JSON-derived Python value (what `json.loads` can produce): `None`, `bool`,
`int`, finite-decimal `float` (`dec m e` = `m / 10^e`, with `e` fraction digits),
`str`, `list`, `dict` (an insertion-ordered association list). -/
inductive JValue : Type where
  | null : JValue
  | bool (b : Bool) : JValue
  | int (n : Int) : JValue
  | dec (m : Int) (e : Nat) : JValue
  | str (s : String) : JValue
  | arr (elems : List JValue) : JValue
  | obj (fields : List (String × JValue)) : JValue

/-- Python's `dict.get(k)` / `k in dict` over the insertion-ordered field list. -/
def dictGet : List (String × JValue) → String → Option JValue
  | [], _ => none
  | (k, v) :: rest, key => if k = key then some v else dictGet rest key

/-- Python's `dict.get(k, default)`. -/
def dictGetD (fields : List (String × JValue)) (key : String) (dflt : JValue) : JValue :=
  (dictGet fields key).getD dflt

/-- Python's `dict[k] = v`: overwrite in place if the key is present (its
position is kept), else append at the end. -/
def dictSet : List (String × JValue) → String → JValue → List (String × JValue)
  | [], key, v => [(key, v)]
  | (k, w) :: rest, key, v =>
      if k = key then (k, v) :: rest else (k, w) :: dictSet rest key v

/-- Python's type name for a `JValue`, as used in exception messages. -/
def pyTypeName : JValue → String
  | .null => "NoneType"
  | .bool _ => "bool"
  | .int _ => "int"
  | .dec _ _ => "float"
  | .str _ => "str"
  | .arr _ => "list"
  | .obj _ => "dict"

/-- Python truthiness of a JSON-derived value: `None`, `False`, `0`, `0.0`,
`""`, `[]` and `{}` are falsy, everything else truthy. -/
def pyTruthy : JValue → Bool
  | .null => false
  | .bool b => b
  | .int n => n != 0
  | .dec m _ => m != 0
  | .str s => s ≠ ""
  | .arr elems => !elems.isEmpty
  | .obj fields => !fields.isEmpty

/-- Python's `v.get(key, default)`: only `dict` has a `.get` attribute; every
other type raises `AttributeError`. -/
def pyGetD (v : JValue) (key : String) (dflt : JValue) : Except String JValue :=
  match v with
  | .obj fields => .ok (dictGetD fields key dflt)
  | other => .error ("AttributeError: " ++ pyTypeName other ++ " object has no attribute get")

/-! ## `SceneValidator.validate_scene` (validator.py lines 86-120)

The validation rules are the `scene_structure.required_metadata` list of field
names (the only part of the rules the function consults). -/

/-- The result dict built by `validate_scene`, with its fixed keys. -/
structure SceneResult where
  scene_id : JValue
  timestamp : String
  valid : Bool
  errors : List String
  warnings : List String
  suggestions : List String

/-- One iteration of the `for field in required_metadata` loop of
`validate_scene`: `if field not in scene_data or not scene_data[field]`,
append the error and clear `valid`. -/
def sceneCheckStep (fields : List (String × JValue)) (r : SceneResult)
    (field : String) : SceneResult :=
  match dictGet fields field with
  | some v =>
      if pyTruthy v then r
      else { r with valid := false
                    errors := r.errors ++ ["Missing required metadata: " ++ field] }
  | none => { r with valid := false
                     errors := r.errors ++ ["Missing required metadata: " ++ field] }

/-- The body of `validate_scene` once `scene_data` is known to be a dict:
build the fresh result record, then run the required-metadata loop. -/
def validateSceneObj (required : List String) (now : String)
    (fields : List (String × JValue)) : SceneResult :=
  let init : SceneResult :=
    { scene_id := dictGetD fields "scene_id" (.str "unknown")
      timestamp := now
      valid := true
      errors := []
      warnings := []
      suggestions := [] }
  required.foldl (sceneCheckStep fields) init

/-- `SceneValidator.validate_scene(scene_data)`.  The first statement already
evaluates `scene_data.get("scene_id", "unknown")`, so a non-dict argument
raises `AttributeError` before any validation happens. -/
def validateScene (required : List String) (now : String) (sceneData : JValue) :
    Except String SceneResult :=
  match sceneData with
  | .obj fields => .ok (validateSceneObj required now fields)
  | other => .error ("AttributeError: " ++ pyTypeName other ++ " object has no attribute get")

/-- The scene-result dict as a JSON value, in the key order `validate_scene`
builds it. -/
def SceneResult.toJson (r : SceneResult) : JValue :=
  .obj [("scene_id", r.scene_id),
        ("timestamp", .str r.timestamp),
        ("valid", .bool r.valid),
        ("errors", .arr (r.errors.map .str)),
        ("warnings", .arr (r.warnings.map .str)),
        ("suggestions", .arr (r.suggestions.map .str))]

/-! ## `SceneValidator.validate_project` (validator.py lines 122-160) -/

/-- The project-level result dict built by `validate_project`. -/
structure ProjectResult where
  project_id : JValue
  timestamp : String
  scene_count : Nat
  valid_scenes : Nat
  invalid_scenes : Nat
  scene_results : List SceneResult
  project_level_issues : List String

/-- The `for scene in project_data` loop of `validate_project`: validate each
scene, append its result, and bump the valid/invalid tally. -/
def projectLoop (required : List String) (now : String) (acc : ProjectResult) :
    List JValue → Except String ProjectResult
  | [] => .ok acc
  | scene :: rest =>
      match validateScene required now scene with
      | .error e => .error e
      | .ok r =>
          projectLoop required now
            { acc with
              scene_results := acc.scene_results ++ [r]
              valid_scenes := acc.valid_scenes + (if r.valid then 1 else 0)
              invalid_scenes := acc.invalid_scenes + (if r.valid then 0 else 1) }
            rest

/-- `SceneValidator.validate_project(project_data)`: the result dict starts
with `project_id` from the first scene (`"unknown"` for an empty project),
`scene_count = len(project_data)` and zeroed tallies, then the loop fills in
the per-scene results. -/
def validateProject (required : List String) (now : String) (scenes : List JValue) :
    Except String ProjectResult :=
  let pidE : Except String JValue :=
    match scenes with
    | [] => .ok (.str "unknown")
    | first :: _ => pyGetD first "project_id" (.str "unknown")
  match pidE with
  | .error e => .error e
  | .ok pid =>
      projectLoop required now
        { project_id := pid
          timestamp := now
          scene_count := scenes.length
          valid_scenes := 0
          invalid_scenes := 0
          scene_results := []
          project_level_issues := [] }
        scenes

/-- The project-result dict as a JSON value, in the key order
`validate_project` builds it. -/
def ProjectResult.toJson (p : ProjectResult) : JValue :=
  .obj [("project_id", p.project_id),
        ("timestamp", .str p.timestamp),
        ("scene_count", .int p.scene_count),
        ("valid_scenes", .int p.valid_scenes),
        ("invalid_scenes", .int p.invalid_scenes),
        ("scene_results", .arr (p.scene_results.map SceneResult.toJson)),
        ("project_level_issues", .arr (p.project_level_issues.map .str))]

/-! ## `json.dumps(·, indent=2)` (the serializer behind `generate_report`)

Python's `json.dumps` with `indent=2` and default options: ASCII-only string
escaping (`ensure_ascii=True`, with `\uXXXX` escapes and surrogate pairs),
`": "` after keys, `","` + newline between items, two spaces of indentation
per nesting level, and `{}`/`[]` for empty containers. -/

/-- The lowercase hex digit for `d < 16` (as `"%04x" % n` produces). -/
def hexDigitChar : Nat → Char
  | 0 => '0' | 1 => '1' | 2 => '2' | 3 => '3' | 4 => '4'
  | 5 => '5' | 6 => '6' | 7 => '7' | 8 => '8' | 9 => '9'
  | 10 => 'a' | 11 => 'b' | 12 => 'c' | 13 => 'd' | 14 => 'e'
  | _ => 'f'

/-- The decimal digit character for `d < 10`. -/
def decDigitChar : Nat → Char
  | 0 => '0' | 1 => '1' | 2 => '2' | 3 => '3' | 4 => '4'
  | 5 => '5' | 6 => '6' | 7 => '7' | 8 => '8' | _ => '9'

/-- A `\uXXXX` escape for the code unit `n < 0x10000`. -/
def uEscape (n : Nat) : List Char :=
  ['\\', 'u', hexDigitChar (n / 4096 % 16), hexDigitChar (n / 256 % 16),
   hexDigitChar (n / 16 % 16), hexDigitChar (n % 16)]

/-- A backslash followed by `c` (the shape of the short escapes). -/
def bsl (c : Char) : List Char :=
  '\\' :: [c]

/-- `ensure_ascii` escaping of one character: the two-character escapes for
quote, backslash and the five named control characters; `\uXXXX` (with a
surrogate pair above `0xFFFF`) for every other character outside printable
ASCII `0x20`-`0x7e`; the character itself otherwise. -/
def escChar (c : Char) : List Char :=
  match c with
  | '"' => bsl '"'
  | '\\' => bsl '\\'
  | '\n' => bsl 'n'
  | '\r' => bsl 'r'
  | '\t' => bsl 't'
  | '\x08' => bsl 'b'
  | '\x0c' => bsl 'f'
  | c =>
      if c.toNat < 0x20 || 0x7e < c.toNat then
        if c.toNat < 0x10000 then uEscape c.toNat
        else uEscape (0xd800 + (c.toNat - 0x10000) / 0x400)
             ++ uEscape (0xdc00 + (c.toNat - 0x10000) % 0x400)
      else [c]

/-- A JSON string literal for `s`: quote, escaped characters, quote. -/
def encStr (s : String) : List Char :=
  '"' :: (s.toList.flatMap escChar ++ ['"'])

/-- Decimal digit characters of `n`, most significant first (`"105"` for 105,
`"0"` for 0). -/
def natChars (n : Nat) : List Char :=
  if _h : n < 10 then [decDigitChar n]
  else natChars (n / 10) ++ [decDigitChar (n % 10)]
  termination_by n
  decreasing_by exact Nat.div_lt_self (by omega) (by omega)

/-- Characters of an integer: optional minus sign, then decimal digits. -/
def intChars (i : Int) : List Char :=
  if i < 0 then '-' :: natChars i.natAbs else natChars i.natAbs

/-- Characters of the decimal `m / 10^e` printed with exactly `e` digits after
the point (`dec 9 1` ↦ `"0.9"`, `dec (-1050) 2` ↦ `"-10.50"`).  The digit run
of `|m|` is zero-padded on the left to at least `e + 1` digits and the point is
inserted before the last `e` of them. -/
def decChars (m : Int) (e : Nat) : List Char :=
  let ds := natChars m.natAbs
  let all := List.replicate ((e + 1) - ds.length) '0' ++ ds
  let whole := all.take (all.length - e)
  let frac := all.drop (all.length - e)
  (if m < 0 then ['-'] else []) ++ whole ++ '.' :: frac

/-- Two spaces of indentation per nesting level (`indent=2`). -/
def indentChars (lvl : Nat) : List Char :=
  List.replicate (2 * lvl) ' '

mutual

/-- `json.dumps(v, indent=2)` at nesting level `lvl`, as a character list. -/
def serVal (lvl : Nat) : JValue → List Char
  | .null => ['n', 'u', 'l', 'l']
  | .bool true => 't' :: ['r', 'u', 'e']
  | .bool false => ['f', 'a', 'l', 's', 'e']
  | .int n => intChars n
  | .dec m e => decChars m e
  | .str s => encStr s
  | .arr [] => ['[', ']']
  | .arr (x :: xs) =>
      '[' :: '\n' :: (indentChars (lvl + 1) ++ serVal (lvl + 1) x ++ serTail lvl xs)
  | .obj [] => ['{', '}']
  | .obj (kv :: kvs) =>
      '{' :: '\n' :: (indentChars (lvl + 1) ++ encStr kv.1 ++ ':' :: ' ' ::
        (serVal (lvl + 1) kv.2 ++ serObjTail lvl kvs))

/-- The remaining array items after the first, each preceded by `",\n"` and
indentation, then the closing newline, indentation and `]`. -/
def serTail (lvl : Nat) : List JValue → List Char
  | [] => '\n' :: (indentChars lvl ++ [']'])
  | y :: ys =>
      ',' :: '\n' :: (indentChars (lvl + 1) ++ serVal (lvl + 1) y ++ serTail lvl ys)

/-- The remaining object entries after the first (key, `": "`, value), then the
closing newline, indentation and `}`. -/
def serObjTail (lvl : Nat) : List (String × JValue) → List Char
  | [] => '\n' :: (indentChars lvl ++ ['}'])
  | kv :: kvs =>
      ',' :: '\n' :: (indentChars (lvl + 1) ++ encStr kv.1 ++ ':' :: ' ' ::
        (serVal (lvl + 1) kv.2 ++ serObjTail lvl kvs))

end

/-- `json.dumps(v, indent=2)`. -/
def dumps (v : JValue) : String :=
  ⟨serVal 0 v⟩

/-! ## `json.loads` (the parser used by `_parse_dialogue_analysis` and by the
round-trip property)

A total recursive-descent parser for the JSON fragment `json.dumps` emits:
strict mode (raw control characters rejected inside strings), `\uXXXX` escapes
with surrogate-pair combination, decimal numbers without exponent notation
(`int` when there is no fraction part, `dec` otherwise), and no trailing data.
Parse failure is `none` (modelling `json.JSONDecodeError`). -/

/-- JSON whitespace (what `json.loads` skips between tokens). -/
def wsChar (c : Char) : Bool :=
  c == ' ' || c == '\t' || c == '\n' || c == '\r'

/-- Drop leading JSON whitespace. -/
def dropWs : List Char → List Char
  | [] => []
  | c :: cs => if wsChar c then dropWs cs else c :: cs

/-- ASCII decimal digit test. -/
def isDigitCh (c : Char) : Bool :=
  '0' ≤ c && c ≤ '9'

/-- Split off the longest leading run of decimal digits. -/
def grabDigits : List Char → List Char × List Char
  | [] => ([], [])
  | c :: cs =>
      if isDigitCh c then
        let p := grabDigits cs
        (c :: p.1, p.2)
      else ([], c :: cs)

/-- The number denoted by a run of decimal digits. -/
def digitsVal (ds : List Char) : Nat :=
  ds.foldl (fun a c => a * 10 + (c.toNat - 48)) 0

/-- The value of one hex digit (either case), if it is one. -/
def hexDigitVal (c : Char) : Option Nat :=
  if '0' ≤ c && c ≤ '9' then some (c.toNat - 48)
  else if 'a' ≤ c && c ≤ 'f' then some (c.toNat - 87)
  else if 'A' ≤ c && c ≤ 'F' then some (c.toNat - 55)
  else none

/-- The value of four hex digits. -/
def hex4Val (a b c d : Char) : Option Nat :=
  match hexDigitVal a, hexDigitVal b, hexDigitVal c, hexDigitVal d with
  | some va, some vb, some vc, some vd => some (va * 4096 + vb * 256 + vc * 16 + vd)
  | _, _, _, _ => none

/-- The rest of a JSON string literal after its opening quote: literal
characters (control characters rejected, as in strict-mode `json.loads`),
two-character escapes, and `\uXXXX` escapes, where a high surrogate must be
completed by an immediately following low-surrogate escape.  `acc` holds the
decoded characters in reverse. -/
def strBody (acc : List Char) : List Char → Option (String × List Char)
  | '"' :: rest => some (⟨acc.reverse⟩, rest)
  | '\\' :: 'u' :: a :: b :: c :: d :: rest =>
      (match hex4Val a b c d with
       | none => none
       | some n =>
           if 0xd800 ≤ n ∧ n < 0xdc00 then
             match rest with
             | '\\' :: 'u' :: a2 :: b2 :: c2 :: d2 :: rest2 =>
                 (match hex4Val a2 b2 c2 d2 with
                  | some n2 =>
                      if 0xdc00 ≤ n2 ∧ n2 < 0xe000 then
                        strBody
                          (Char.ofNat (0x10000 + (n - 0xd800) * 0x400 + (n2 - 0xdc00)) :: acc)
                          rest2
                      else none
                  | none => none)
             | _ => none
           else if 0xd800 ≤ n ∧ n < 0xe000 then none
           else strBody (Char.ofNat n :: acc) rest)
  | '\\' :: e :: rest =>
      (match e with
       | '"' => strBody ('"' :: acc) rest
       | '\\' => strBody ('\\' :: acc) rest
       | '/' => strBody ('/' :: acc) rest
       | 'n' => strBody ('\n' :: acc) rest
       | 'r' => strBody ('\r' :: acc) rest
       | 't' => strBody ('\t' :: acc) rest
       | 'b' => strBody ('\x08' :: acc) rest
       | 'f' => strBody ('\x0c' :: acc) rest
       | _ => none)
  | c :: rest => if c.toNat < 0x20 then none else strBody (c :: acc) rest
  | [] => none
termination_by cs => cs.length
decreasing_by all_goals (simp_all; try omega)

/-- An unsigned JSON number after the sign `s`: an integer part that is `0` or
starts with a nonzero digit, and an optional `.` fraction part (which makes the
number a float, `dec`, with as many fraction digits as written). -/
def numTokenBody (s : Int) : List Char → Option (JValue × List Char)
  | [] => none
  | d :: r =>
      let ip : Option (List Char × List Char) :=
        if d == '0' then some (['0'], r)
        else if isDigitCh d then some (grabDigits (d :: r))
        else none
      match ip with
      | none => none
      | some (ids, r1) =>
          match r1 with
          | [] => some (.int (s * (digitsVal ids : Int)), [])
          | c1 :: r2 =>
              if c1 == '.' then
                let q := grabDigits r2
                if q.1.isEmpty then none
                else some (.dec (s * (digitsVal (ids ++ q.1) : Int)) q.1.length, q.2)
              else some (.int (s * (digitsVal ids : Int)), c1 :: r2)

/-- A JSON number token: optional sign, then an unsigned number.  Matches the
number regular expression of Python's `json` module, less the exponent part
(which `dumps` never emits for the values modelled here). -/
def numToken (cs : List Char) : Option (JValue × List Char) :=
  match cs with
  | [] => none
  | c :: r =>
      let s : Int := if c == '-' then -1 else 1
      numTokenBody s (if c == '-' then r else c :: r)

mutual

/-- Parse one JSON value (leading whitespace skipped); `fuel` bounds the
recursion and exceeds the input length at the top level. -/
def loadVal : Nat → List Char → Option (JValue × List Char)
  | 0, _ => none
  | fuel + 1, cs =>
      match dropWs cs with
      | 'n' :: 'u' :: 'l' :: 'l' :: r => some (.null, r)
      | 't' :: 'r' :: 'u' :: 'e' :: r => some (.bool true, r)
      | 'f' :: 'a' :: 'l' :: 's' :: 'e' :: r => some (.bool false, r)
      | '"' :: r =>
          (match strBody [] r with
           | some (s, r1) => some (.str s, r1)
           | none => none)
      | '[' :: r =>
          (match dropWs r with
           | [] => none
           | c :: r1 =>
               if c == ']' then some (.arr [], r1)
               else
                 match loadArrItems fuel (c :: r1) with
                 | some (vs, r2) => some (.arr vs, r2)
                 | none => none)
      | '{' :: r =>
          (match dropWs r with
           | [] => none
           | c :: r1 =>
               if c == '}' then some (.obj [], r1)
               else
                 match loadObjItems fuel (c :: r1) with
                 | some (kvs, r2) => some (.obj kvs, r2)
                 | none => none)
      | c :: r => if c == '-' || isDigitCh c then numToken (c :: r) else none
      | [] => none

/-- One or more comma-separated array items up to the closing `]`. -/
def loadArrItems : Nat → List Char → Option (List JValue × List Char)
  | 0, _ => none
  | fuel + 1, cs =>
      match loadVal fuel cs with
      | none => none
      | some (v, r) =>
          match dropWs r with
          | ',' :: r1 =>
              (match loadArrItems fuel r1 with
               | some (vs, r2) => some (v :: vs, r2)
               | none => none)
          | ']' :: r1 => some ([v], r1)
          | _ => none

/-- One or more comma-separated `"key": value` entries up to the closing `}`. -/
def loadObjItems : Nat → List Char → Option (List (String × JValue) × List Char)
  | 0, _ => none
  | fuel + 1, cs =>
      match dropWs cs with
      | '"' :: r =>
          (match strBody [] r with
           | none => none
           | some (k, r1) =>
               match dropWs r1 with
               | ':' :: r2 =>
                   (match loadVal fuel r2 with
                    | none => none
                    | some (v, r3) =>
                        match dropWs r3 with
                        | ',' :: r4 =>
                            (match loadObjItems fuel r4 with
                             | some (kvs, r5) => some ((k, v) :: kvs, r5)
                             | none => none)
                        | '}' :: r4 => some ([(k, v)], r4)
                        | _ => none)
               | _ => none)
      | _ => none

end

/-- `json.loads(s)`: parse one value and insist nothing but whitespace
follows. -/
def loads (s : String) : Option JValue :=
  match loadVal (s.length + 1) s.toList with
  | some (v, r) => if (dropWs r).isEmpty then some v else none
  | none => none

/-! ## The codec round trip: `loads (dumps v) = some v`

`jwf` delimits the values that arise from Python's `json`: every `dec` must
print at least one fraction digit (a Python float is never printed without
one), so that the serialized form parses back to `dec` rather than `int`. -/

mutual

/-- Well-formed JSON value: every `dec` has a positive fraction width. -/
def jwf : JValue → Bool
  | .null => true
  | .bool _ => true
  | .int _ => true
  | .dec _ e => decide (0 < e)
  | .str _ => true
  | .arr xs => jwfArr xs
  | .obj fs => jwfObj fs

/-- All array elements well formed. -/
def jwfArr : List JValue → Bool
  | [] => true
  | x :: xs => jwf x && jwfArr xs

/-- All object values well formed. -/
def jwfObj : List (String × JValue) → Bool
  | [] => true
  | kv :: fs => jwf kv.2 && jwfObj fs

end

theorem dropWs_cons_nws {c : Char} (h : wsChar c = false) (t : List Char) :
    dropWs (c :: t) = c :: t := by
  simp [dropWs, h]

theorem dropWs_spaces (k : Nat) (x : List Char) :
    dropWs (List.replicate k ' ' ++ x) = dropWs x := by
  induction k with
  | zero => rfl
  | succ n ih => simpa [dropWs, wsChar] using ih

theorem dropWs_indent (k : Nat) (x : List Char) :
    dropWs (indentChars k ++ x) = dropWs x :=
  dropWs_spaces (2 * k) x

theorem dropWs_nl (x : List Char) : dropWs ('\n' :: x) = dropWs x := by
  simp [dropWs, wsChar]

theorem dropWs_idem (x : List Char) : dropWs (dropWs x) = dropWs x := by
  induction x with
  | nil => rfl
  | cons c t ih =>
      by_cases h : wsChar c = true
      · simpa [dropWs, h] using ih
      · simp [dropWs, h]

/-- Everything a decimal-digit character is not. -/
theorem digit_props {c : Char} (h : isDigitCh c = true) :
    wsChar c = false ∧ c ≠ ']' ∧ c ≠ '}' ∧ c ≠ ',' ∧ c ≠ ':' ∧ c ≠ '.' ∧ c ≠ '-' ∧
    c ≠ 'n' ∧ c ≠ 't' ∧ c ≠ 'f' ∧ c ≠ '"' ∧ c ≠ '[' ∧ c ≠ '{' := by
  simp only [isDigitCh, Bool.and_eq_true, decide_eq_true_eq] at h
  obtain ⟨h0, h9⟩ := h
  refine ⟨?_, ?_⟩
  · simp only [wsChar, Bool.or_eq_false_iff, beq_eq_false_iff_ne]
    refine ⟨⟨⟨?_, ?_⟩, ?_⟩, ?_⟩ <;>
      (intro hc; subst hc; revert h0 h9; decide)
  · refine ⟨?_, ?_, ?_, ?_, ?_, ?_, ?_, ?_, ?_, ?_, ?_, ?_⟩ <;>
      (intro hc; subst hc; revert h0 h9; decide)

theorem decDigitChar_lt10 (d : Nat) (h : d < 10) :
    (decDigitChar d).toNat = 48 + d ∧ isDigitCh (decDigitChar d) = true := by
  interval_cases d <;> exact ⟨by decide, by decide⟩

theorem natChars_ne_nil (n : Nat) : natChars n ≠ [] := by
  rw [natChars]
  split <;> simp

theorem natChars_digits (n : Nat) : ∀ c ∈ natChars n, isDigitCh c = true := by
  induction n using Nat.strongRecOn with
  | _ n ih =>
    rw [natChars]
    split
    · next h =>
        intro c hc
        rw [List.mem_singleton] at hc
        subst hc
        exact (decDigitChar_lt10 n h).2
    · next h =>
        intro c hc
        rw [List.mem_append] at hc
        rcases hc with hc | hc
        · exact ih (n / 10) (Nat.div_lt_self (by omega) (by omega)) c hc
        · rw [List.mem_singleton] at hc
          subst hc
          exact (decDigitChar_lt10 (n % 10) (Nat.mod_lt _ (by omega))).2

theorem natChars_head (n : Nat) :
    ∃ c t, natChars n = c :: t ∧ isDigitCh c = true := by
  match hn : natChars n with
  | [] => exact absurd hn (natChars_ne_nil n)
  | c :: t => exact ⟨c, t, rfl, natChars_digits n c (hn ▸ List.mem_cons_self ..)⟩

theorem digitsVal_snoc (ds : List Char) (c : Char) :
    digitsVal (ds ++ [c]) = digitsVal ds * 10 + (c.toNat - 48) := by
  simp [digitsVal]

theorem digitsVal_natChars (n : Nat) : digitsVal (natChars n) = n := by
  induction n using Nat.strongRecOn with
  | _ n ih =>
    rw [natChars]
    split
    · next h =>
        simp [digitsVal, (decDigitChar_lt10 n h).1]
    · next h =>
        rw [digitsVal_snoc, ih (n / 10) (Nat.div_lt_self (by omega) (by omega)),
            (decDigitChar_lt10 (n % 10) (Nat.mod_lt _ (by omega))).1]
        omega

theorem digitsVal_zeros (k : Nat) (ds : List Char) :
    digitsVal (List.replicate k '0' ++ ds) = digitsVal ds := by
  induction k with
  | zero => rfl
  | succ m ih => simpa [digitsVal, List.replicate_succ] using ih

/-- The input cannot continue a digit run: empty, or headed by a non-digit. -/
def noDigitHead : List Char → Bool
  | [] => true
  | c :: _ => !isDigitCh c

theorem grabDigits_stop {cs : List Char} (h : noDigitHead cs = true) :
    grabDigits cs = ([], cs) := by
  match cs with
  | [] => rfl
  | c :: t =>
      simp only [noDigitHead, Bool.not_eq_true'] at h
      simp [grabDigits, h]

theorem grabDigits_run (ds : List Char) (hds : ∀ c ∈ ds, isDigitCh c = true)
    (rest : List Char) (hr : noDigitHead rest = true) :
    grabDigits (ds ++ rest) = (ds, rest) := by
  induction ds with
  | nil => simpa using grabDigits_stop hr
  | cons c t ih =>
      have hc : isDigitCh c = true := hds c (by simp)
      have ht := ih (fun x hx => hds x (by simp [hx]))
      simp [grabDigits, hc, ht]

theorem char_toNat_valid (c : Char) :
    c.toNat < 0xd800 ∨ (0xdfff < c.toNat ∧ c.toNat < 0x110000) := by
  have h := c.valid
  simp only [UInt32.isValidChar, Nat.isValidChar] at h
  exact h

theorem hexDigitVal_hexDigitChar (d : Nat) (h : d < 16) :
    hexDigitVal (hexDigitChar d) = some d := by
  interval_cases d <;> decide

theorem hex4Val_uEscape (n : Nat) (h : n < 0x10000) :
    hex4Val (hexDigitChar (n / 4096 % 16)) (hexDigitChar (n / 256 % 16))
      (hexDigitChar (n / 16 % 16)) (hexDigitChar (n % 16)) = some n := by
  rw [hex4Val,
      hexDigitVal_hexDigitChar _ (Nat.mod_lt _ (by omega)),
      hexDigitVal_hexDigitChar _ (Nat.mod_lt _ (by omega)),
      hexDigitVal_hexDigitChar _ (Nat.mod_lt _ (by omega)),
      hexDigitVal_hexDigitChar _ (Nat.mod_lt _ (by omega))]
  have h16 : n / 4096 % 16 * 4096 + n / 256 % 16 * 256 + n / 16 % 16 * 16 + n % 16 = n := by
    omega
  show some (n / 4096 % 16 * 4096 + n / 256 % 16 * 256 + n / 16 % 16 * 16 + n % 16) = some n
  rw [h16]

theorem strBody_uescape (n : Nat) (hlt : n < 0x10000) (hs : n < 0xd800 ∨ 0xe000 ≤ n)
    (acc rest : List Char) :
    strBody acc (uEscape n ++ rest) = strBody (Char.ofNat n :: acc) rest := by
  simp only [uEscape, List.cons_append, List.nil_append]
  rw [strBody, hex4Val_uEscape n hlt]
  show (if 0xd800 ≤ n ∧ n < 0xdc00 then _ else
        if 0xd800 ≤ n ∧ n < 0xe000 then none else strBody (Char.ofNat n :: acc) rest) =
      strBody (Char.ofNat n :: acc) rest
  rw [if_neg (by omega), if_neg (by omega)]

theorem strBody_pair (c : Char) (hge : 0x10000 ≤ c.toNat) (acc rest : List Char) :
    strBody acc (uEscape (0xd800 + (c.toNat - 0x10000) / 0x400)
      ++ (uEscape (0xdc00 + (c.toNat - 0x10000) % 0x400) ++ rest))
      = strBody (c :: acc) rest := by
  have hv := char_toNat_valid c
  have hdiv : (c.toNat - 0x10000) / 0x400 < 0x400 := by omega
  have hmod : (c.toNat - 0x10000) % 0x400 < 0x400 := by omega
  simp only [uEscape, List.cons_append, List.nil_append]
  rw [strBody, hex4Val_uEscape _ (by omega)]
  split
  · next heq => exact absurd heq (by simp)
  · next n heq =>
      injection heq with heqn
      subst heqn
      rw [if_pos (by omega)]
      simp only [hex4Val_uEscape _ (show 0xdc00 + (c.toNat - 0x10000) % 0x400 < 0x10000 by omega)]
      rw [if_pos (by omega)]
      have harith : 0x10000 + (0xd800 + (c.toNat - 0x10000) / 0x400 - 0xd800) * 0x400
          + (0xdc00 + (c.toNat - 0x10000) % 0x400 - 0xdc00) = c.toNat := by omega
      rw [harith, Char.ofNat_toNat]

theorem strBody_lit (c : Char) (h1 : c ≠ '"') (h2 : c ≠ '\\') (h3 : 0x20 ≤ c.toNat)
    (acc rest : List Char) : strBody acc (c :: rest) = strBody (c :: acc) rest := by
  rw [strBody.eq_12 acc c rest (fun h => h1 h) (fun _ _ _ _ _ h _ => h2 h) (fun _ _ h _ => h2 h)]
  rw [if_neg (by omega)]

theorem strBody_escChar (c : Char) (acc rest : List Char) :
    strBody acc (escChar c ++ rest) = strBody (c :: acc) rest := by
  by_cases hq : c = '"'
  · subst hq; simp [escChar, bsl, strBody]
  by_cases hbs : c = '\\'
  · subst hbs; simp [escChar, bsl, strBody]
  by_cases hnl : c = '\n'
  · subst hnl; simp [escChar, bsl, strBody]
  by_cases hcr : c = '\x0d'
  · subst hcr; simp [escChar, bsl, strBody]
  by_cases htb : c = '\t'
  · subst htb; simp [escChar, bsl, strBody]
  by_cases hbsp : c = '\x08'
  · subst hbsp; simp [escChar, bsl, strBody]
  by_cases hff : c = '\x0c'
  · subst hff; simp [escChar, bsl, strBody]
  rw [escChar.eq_8 c (fun h => hq h) (fun h => hbs h) (fun h => hnl h) (fun h => hcr h)
      (fun h => htb h) (fun h => hbsp h) (fun h => hff h)]
  have hv := char_toNat_valid c
  by_cases hout : (decide (c.toNat < 0x20) || decide (0x7e < c.toNat)) = true
  · rw [if_pos hout]
    by_cases hbig : c.toNat < 0x10000
    · rw [if_pos hbig, strBody_uescape c.toNat hbig (by omega), Char.ofNat_toNat]
    · rw [if_neg hbig, List.append_assoc, strBody_pair c (by omega)]
  · rw [if_neg hout]
    have h20 : 0x20 ≤ c.toNat := by
      simp only [Bool.or_eq_true, decide_eq_true_eq, not_or] at hout
      omega
    exact strBody_lit c hq hbs h20 acc rest

theorem strBody_flat (cs : List Char) : ∀ (acc rest : List Char),
    strBody acc (cs.flatMap escChar ++ '"' :: rest) = some (⟨acc.reverse ++ cs⟩, rest) := by
  induction cs with
  | nil => intro acc rest; simp [strBody]
  | cons c cs ih =>
      intro acc rest
      rw [List.flatMap_cons, List.append_assoc, strBody_escChar, ih]
      simp

theorem strBody_encStr (s : String) (rest : List Char) :
    strBody [] (s.toList.flatMap escChar ++ '"' :: rest) = some (s, rest) := by
  rw [strBody_flat]
  simp [String.toList]

/-- The input cannot extend a number token: empty, or headed by a character
that is neither a digit nor a decimal point.  Every separator `dumps` places
after a number (`,`, newline, end of input) qualifies. -/
def numBreak : List Char → Bool
  | [] => true
  | c :: _ => !(isDigitCh c || c == '.')

theorem numBreak_noDigitHead {cs : List Char} (h : numBreak cs = true) :
    noDigitHead cs = true := by
  cases cs with
  | nil => rfl
  | cons c t =>
      simp only [numBreak, Bool.not_eq_true', Bool.or_eq_false_iff] at h
      simp [noDigitHead, h.1]

theorem numBreak_head {c : Char} {t : List Char} (h : numBreak (c :: t) = true) :
    isDigitCh c = false ∧ (c == '.') = false := by
  simpa only [numBreak, Bool.not_eq_true', Bool.or_eq_false_iff] using h

theorem natChars_zero : natChars 0 = ['0'] := by
  rw [natChars]
  rfl

theorem natChars_head_pos (n : Nat) (hn : 0 < n) :
    ∃ c t, natChars n = c :: t ∧ isDigitCh c = true ∧ c ≠ '0' := by
  induction n using Nat.strongRecOn with
  | _ n ih =>
    rw [natChars]
    split
    · next h =>
        refine ⟨decDigitChar n, [], rfl, (decDigitChar_lt10 n h).2, ?_⟩
        interval_cases n <;> decide
    · next h =>
        obtain ⟨c, t, hct, hd, hz⟩ :=
          ih (n / 10) (Nat.div_lt_self (by omega) (by omega)) (by omega)
        exact ⟨c, t ++ [decDigitChar (n % 10)], by rw [hct]; rfl, hd, hz⟩

theorem digitsVal_cons_zero (frac : List Char) : digitsVal ('0' :: frac) = digitsVal frac := by
  simpa using digitsVal_zeros 1 frac

/-- Parsing an unsigned number whose integer part is a bare `0`. -/
theorem numTokenBody_fracZero (s : Int) (frac rest : List Char) (hf : frac ≠ [])
    (hfd : ∀ c ∈ frac, isDigitCh c = true) (hr : numBreak rest = true) :
    numTokenBody s ('0' :: '.' :: (frac ++ rest))
      = some (.dec (s * (digitsVal frac : Int)) frac.length, rest) := by
  have hgrab2 := grabDigits_run frac hfd rest (numBreak_noDigitHead hr)
  have hfe : frac.isEmpty = false := by
    cases frac with
    | nil => exact absurd rfl hf
    | cons a b => rfl
  simp [numTokenBody, hgrab2, hfe, digitsVal_cons_zero]

/-- Parsing an unsigned number with a nonzero leading digit and a fraction. -/
theorem numTokenBody_fracRun (s : Int) (c : Char) (t frac rest : List Char)
    (hcd : isDigitCh c = true) (hc0 : c ≠ '0')
    (htd : ∀ x ∈ t, isDigitCh x = true) (hf : frac ≠ [])
    (hfd : ∀ x ∈ frac, isDigitCh x = true) (hr : numBreak rest = true) :
    numTokenBody s ((c :: t) ++ '.' :: (frac ++ rest))
      = some (.dec (s * (digitsVal ((c :: t) ++ frac) : Int)) frac.length, rest) := by
  have hc0' : (c == '0') = false := by simpa using hc0
  have hnd : noDigitHead ('.' :: (frac ++ rest)) = true := by simp [noDigitHead, isDigitCh]
  have hall : ∀ x ∈ c :: t, isDigitCh x = true := by
    intro x hx
    rcases List.mem_cons.mp hx with rfl | hx
    · exact hcd
    · exact htd x hx
  have hgrab := grabDigits_run (c :: t) hall ('.' :: (frac ++ rest)) hnd
  have hgrab2 := grabDigits_run frac hfd rest (numBreak_noDigitHead hr)
  have hfe : frac.isEmpty = false := by
    cases frac with
    | nil => exact absurd rfl hf
    | cons a b => rfl
  simp only [List.cons_append] at hgrab ⊢
  simp [numTokenBody, hc0', hcd, hgrab, hgrab2, hfe]

/-- Parsing an unsigned number with no fraction part. -/
theorem numTokenBody_int (s : Int) (a : Nat) (rest : List Char) (hr : numBreak rest = true) :
    numTokenBody s (natChars a ++ rest) = some (.int (s * (a : Int)), rest) := by
  rcases Nat.eq_zero_or_pos a with rfl | ha
  · rw [natChars_zero]
    cases rest with
    | nil => simp [numTokenBody, digitsVal]
    | cons c1 r2 =>
        obtain ⟨hd1, hdot1⟩ := numBreak_head hr
        simp [numTokenBody, hdot1, digitsVal]
  · obtain ⟨c, t, hct, hcd, hc0⟩ := natChars_head_pos a ha
    have hc0' : (c == '0') = false := by simpa using hc0
    have hgrab : grabDigits (natChars a ++ rest) = (natChars a, rest) :=
      grabDigits_run _ (natChars_digits a) rest (numBreak_noDigitHead hr)
    rw [hct] at hgrab ⊢
    simp only [List.cons_append] at hgrab ⊢
    have hval : digitsVal (c :: t) = a := by
      have := digitsVal_natChars a
      rwa [hct] at this
    cases rest with
    | nil =>
        simp only [List.append_nil] at hgrab
        simp [numTokenBody, hc0', hcd, hgrab, hval]
    | cons c1 r2 =>
        obtain ⟨hd1, hdot1⟩ := numBreak_head hr
        simp [numTokenBody, hc0', hcd, hgrab, hval, hdot1]

/-- A number token whose head is no minus sign parses with positive sign. -/
theorem numToken_nosign {c : Char} (h : (c == '-') = false) (r : List Char) :
    numToken (c :: r) = numTokenBody 1 (c :: r) := by
  simp only [numToken]
  rw [if_neg (by simp [h]), if_neg (by simp [h])]

/-- `numToken` inverts `intChars`. -/
theorem numToken_intChars (n : Int) (rest : List Char) (hr : numBreak rest = true) :
    numToken (intChars n ++ rest) = some (.int n, rest) := by
  by_cases hn : n < 0
  · rw [intChars, if_pos hn]
    simp only [List.cons_append, numToken, beq_self_eq_true, if_pos]
    rw [numTokenBody_int (-1) n.natAbs rest hr]
    have hv : (-1 : Int) * n.natAbs = n := by omega
    rw [hv]
  · rw [intChars, if_neg hn]
    obtain ⟨c, t, hct, hcd⟩ := natChars_head (n.natAbs)
    have hminus : (c == '-') = false := by
      simpa using (digit_props hcd).2.2.2.2.2.2.1
    rw [hct, List.cons_append, numToken_nosign hminus, ← List.cons_append, ← hct,
        numTokenBody_int 1 n.natAbs rest hr]
    have hv : (1 : Int) * n.natAbs = n := by omega
    rw [hv]

/-- `decChars` of a nonnegative mantissa starts with a digit. -/
theorem decChars_nonneg_head (a e : Nat) :
    ∃ c t, decChars (a : Int) e = c :: t ∧ isDigitCh c = true := by
  rw [decChars]
  simp only [Int.natAbs_ofNat, if_neg (show ¬ ((a : Int) < 0) by omega), List.nil_append]
  have hlen1 : 1 ≤ (natChars a).length := by
    cases hnc : natChars a with
    | nil => exact absurd hnc (natChars_ne_nil _)
    | cons x y => simp
  have hlenall :
      1 ≤ (List.replicate ((e + 1) - (natChars a).length) '0' ++ natChars a).length - e := by
    simp only [List.length_append, List.length_replicate]
    omega
  have hd : ∀ x ∈ List.replicate ((e + 1) - (natChars a).length) '0' ++ natChars a,
      isDigitCh x = true := by
    intro x hx
    rcases List.mem_append.mp hx with hx | hx
    · rw [List.eq_of_mem_replicate hx]
      decide
    · exact natChars_digits _ x hx
  cases hall : List.replicate ((e + 1) - (natChars a).length) '0' ++ natChars a with
  | nil =>
      rw [hall] at hlenall
      simp at hlenall
  | cons a0 t0 =>
      rw [hall] at hlenall hd
      obtain ⟨k, hk⟩ : ∃ k, (a0 :: t0).length - e = k + 1 :=
        ⟨(a0 :: t0).length - e - 1, by omega⟩
      rw [hk, List.take_succ_cons, List.cons_append]
      exact ⟨a0, _, rfl, hd a0 (List.mem_cons_self ..)⟩

/-- `numTokenBody` inverts `decChars` on nonnegative mantissas. -/
theorem numTokenBody_decNat (s : Int) (a e : Nat) (he : 0 < e) (rest : List Char)
    (hr : numBreak rest = true) :
    numTokenBody s (decChars (a : Int) e ++ rest) = some (.dec (s * (a : Int)) e, rest) := by
  have hlen : 1 ≤ (natChars a).length := by
    cases h : natChars a with
    | nil => exact absurd h (natChars_ne_nil a)
    | cons x y => simp
  rw [decChars]
  simp only [Int.natAbs_ofNat, if_neg (by omega : ¬ (a : Int) < 0), List.nil_append]
  by_cases hcase : (natChars a).length ≤ e
  · -- zero-padded: the whole part is a bare `0`
    have hpad : (e + 1) - (natChars a).length = ((e - (natChars a).length) + 1) := by omega
    rw [hpad, List.replicate_succ]
    simp only [List.cons_append]
    set rest0 := List.replicate (e - (natChars a).length) '0' ++ natChars a with hrest0
    have hlen0 : ('0' :: rest0).length = e + 1 := by
      rw [hrest0]
      simp only [List.length_cons, List.length_append, List.length_replicate]
      omega
    have htake : (('0' :: rest0).take (('0' :: rest0).length - e)) = ['0'] := by
      rw [hlen0]
      simp
    have hdrop : (('0' :: rest0).drop (('0' :: rest0).length - e)) = rest0 := by
      rw [hlen0]
      simp
    rw [htake, hdrop]
    have key0 := numTokenBody_fracZero s rest0 rest
        (by
          rw [hrest0]
          intro hemp
          exact natChars_ne_nil a (List.append_eq_nil.mp hemp).2)
        (by
          intro x hx
          rw [hrest0] at hx
          rcases List.mem_append.mp hx with hx | hx
          · rw [List.eq_of_mem_replicate hx]
            decide
          · exact natChars_digits a x hx)
        hr
    simp only [List.singleton_append, List.cons_append, List.append_assoc,
      List.nil_append] at key0 ⊢
    rw [key0]
    rw [hrest0, digitsVal_zeros, digitsVal_natChars]
    have hfl : (List.replicate (e - (natChars a).length) '0' ++ natChars a).length = e := by
      simp only [List.length_append, List.length_replicate]
      omega
    rw [hfl]
  · -- no padding: the whole part starts with a nonzero digit
    have hpad : (e + 1) - (natChars a).length = 0 := by omega
    rw [hpad]
    simp only [List.replicate_zero, List.nil_append]
    have ha : 0 < a := by
      by_contra h
      have ha0 : a = 0 := by omega
      subst ha0
      rw [natChars_zero] at hcase
      simp at hcase
      omega
    obtain ⟨c, t, hct, hcd, hc0⟩ := natChars_head_pos a ha
    have hlen2 : e ≤ t.length := by
      have h2 := hcase
      rw [hct] at h2
      simp only [List.length_cons] at h2
      omega
    rw [hct]
    have hlent : (c :: t).length - e = (t.length - e) + 1 := by
      simp only [List.length_cons]
      omega
    rw [hlent, List.take_succ_cons, List.drop_succ_cons]
    have hfraclen : (t.drop (t.length - e)).length = e := by
      rw [List.length_drop]
      omega
    have key := numTokenBody_fracRun s c (t.take (t.length - e)) (t.drop (t.length - e)) rest
        hcd hc0
        (fun x hx => natChars_digits a x
          (by rw [hct]; exact List.mem_cons_of_mem c (List.take_subset _ _ hx)))
        (by
          intro hnil
          rw [hnil] at hfraclen
          simp at hfraclen
          omega)
        (fun x hx => natChars_digits a x
          (by rw [hct]; exact List.mem_cons_of_mem c (List.drop_subset _ _ hx)))
        hr
    simp only [List.cons_append, List.append_assoc] at key ⊢
    rw [key, List.take_append_drop]
    have hval : digitsVal (c :: t) = a := by
      have hv := digitsVal_natChars a
      rwa [hct] at hv
    rw [hval, hfraclen]

/-- `numToken` inverts `decChars`. -/
theorem numToken_decChars (m : Int) (e : Nat) (he : 0 < e) (rest : List Char)
    (hr : numBreak rest = true) :
    numToken (decChars m e ++ rest) = some (.dec m e, rest) := by
  by_cases hm : m < 0
  · have hsplit : decChars m e = '-' :: decChars (↑m.natAbs) e := by
      rw [decChars, decChars]
      simp only [Int.natAbs_ofNat, if_pos hm, if_neg (show ¬ ((m.natAbs : Int) < 0) by omega),
        List.nil_append, List.singleton_append, List.cons_append, List.append_assoc]
    rw [hsplit]
    simp only [List.cons_append, numToken, beq_self_eq_true, if_pos]
    rw [numTokenBody_decNat (-1) m.natAbs e he rest hr]
    have hv : (-1 : Int) * m.natAbs = m := by omega
    rw [hv]
  · have hm' : ((m.natAbs : Int)) = m := Int.natAbs_of_nonneg (by omega)
    rw [← hm']
    obtain ⟨c, t, hct, hcd⟩ := decChars_nonneg_head m.natAbs e
    have hminus : (c == '-') = false := by
      simpa using (digit_props hcd).2.2.2.2.2.2.1
    rw [hct, List.cons_append, numToken_nosign hminus, ← List.cons_append, ← hct,
        numTokenBody_decNat 1 m.natAbs e he rest hr, one_mul]

theorem decChars_neg (m : Int) (e : Nat) (hm : m < 0) :
    decChars m e = '-' :: decChars (↑m.natAbs) e := by
  rw [decChars, decChars]
  simp only [Int.natAbs_ofNat, if_pos hm, if_neg (show ¬ ((m.natAbs : Int) < 0) by omega),
    List.nil_append, List.singleton_append, List.cons_append, List.append_assoc]

theorem jwfArr_cons {x : JValue} {xs : List JValue} (h : jwfArr (x :: xs) = true) :
    jwf x = true ∧ jwfArr xs = true := by
  simpa [jwfArr, Bool.and_eq_true] using h

theorem jwfObj_cons {kv : String × JValue} {fs : List (String × JValue)}
    (h : jwfObj (kv :: fs) = true) : jwf kv.2 = true ∧ jwfObj fs = true := by
  rw [jwfObj] at h
  simpa [Bool.and_eq_true] using h

/-- Every serialized value starts with a non-whitespace character other than
`]` (and `}`). -/
theorem serVal_head (lvl : Nat) (v : JValue) :
    ∃ c t, serVal lvl v = c :: t ∧ wsChar c = false ∧ c ≠ ']' ∧ c ≠ '}' := by
  cases v with
  | null => refine ⟨'n', _, rfl, ?_, ?_, ?_⟩ <;> decide
  | bool b =>
      cases b with
      | true => refine ⟨'t', _, rfl, ?_, ?_, ?_⟩ <;> decide
      | false => refine ⟨'f', _, rfl, ?_, ?_, ?_⟩ <;> decide
  | str s =>
      refine ⟨'"', _, by rw [serVal]; rfl, ?_, ?_, ?_⟩ <;> decide
  | arr elems =>
      cases elems with
      | nil => refine ⟨'[', _, rfl, ?_, ?_, ?_⟩ <;> decide
      | cons x xs => refine ⟨'[', _, rfl, ?_, ?_, ?_⟩ <;> decide
  | obj fields =>
      cases fields with
      | nil => refine ⟨'{', _, rfl, ?_, ?_, ?_⟩ <;> decide
      | cons kv kvs => refine ⟨'{', _, rfl, ?_, ?_, ?_⟩ <;> decide
  | int n =>
      by_cases hn : n < 0
      · refine ⟨'-', _, by rw [serVal, intChars, if_pos hn], ?_, ?_, ?_⟩ <;> decide
      · obtain ⟨c, t, hct, hcd⟩ := natChars_head n.natAbs
        obtain ⟨hws, hbr, hbc, -⟩ := digit_props hcd
        exact ⟨c, t, by rw [serVal, intChars, if_neg hn, hct], hws, hbr, hbc⟩
  | dec m e =>
      by_cases hm : m < 0
      · refine ⟨'-', _, by rw [serVal, decChars_neg m e hm], ?_, ?_, ?_⟩ <;> decide
      · obtain ⟨c, t, hct, hcd⟩ := decChars_nonneg_head m.natAbs e
        obtain ⟨hws, hbr, hbc, -⟩ := digit_props hcd
        refine ⟨c, t, ?_, hws, hbr, hbc⟩
        rw [serVal, show m = ((m.natAbs : Int)) from (Int.natAbs_of_nonneg (by omega)).symm]
        exact hct

theorem dropWs_serVal (lvl : Nat) (v : JValue) (x : List Char) :
    dropWs (serVal lvl v ++ x) = serVal lvl v ++ x := by
  obtain ⟨c, t, hct, hws, -⟩ := serVal_head lvl v
  rw [hct, List.cons_append, dropWs_cons_nws hws]

theorem serVal_len_pos (lvl : Nat) (v : JValue) : 1 ≤ (serVal lvl v).length := by
  obtain ⟨c, t, hct, -⟩ := serVal_head lvl v
  rw [hct]
  simp

/-- `loadVal` only looks at its input through `dropWs`. -/
theorem loadVal_ws {cs cs' : List Char} (h : dropWs cs = dropWs cs') (fuel : Nat) :
    loadVal fuel cs = loadVal fuel cs' := by
  cases fuel with
  | zero => rfl
  | succ f => simp only [loadVal]; rw [h]

theorem loadArrItems_ws {cs cs' : List Char} (h : dropWs cs = dropWs cs') (fuel : Nat) :
    loadArrItems fuel cs = loadArrItems fuel cs' := by
  cases fuel with
  | zero => rfl
  | succ f => simp only [loadArrItems]; rw [loadVal_ws h f]

theorem loadObjItems_ws {cs cs' : List Char} (h : dropWs cs = dropWs cs') (fuel : Nat) :
    loadObjItems fuel cs = loadObjItems fuel cs' := by
  cases fuel with
  | zero => rfl
  | succ f => simp only [loadObjItems]; rw [h]

theorem numBreak_serTail (lvl : Nat) (xs : List JValue) (rest : List Char) :
    numBreak (serTail lvl xs ++ rest) = true := by
  cases xs with
  | nil => simp only [serTail, List.cons_append, numBreak]; decide
  | cons y ys => simp only [serTail, List.cons_append, numBreak]; decide

theorem numBreak_serObjTail (lvl : Nat) (fs : List (String × JValue)) (rest : List Char) :
    numBreak (serObjTail lvl fs ++ rest) = true := by
  cases fs with
  | nil => simp only [serObjTail, List.cons_append, numBreak]; decide
  | cons kv kvs => simp only [serObjTail, List.cons_append, numBreak]; decide

/-- `loadVal` hands a minus-headed input to the number token parser. -/
theorem loadVal_minusArm (f : Nat) (t : List Char) :
    loadVal (f + 1) ('-' :: t) = numToken ('-' :: t) := by
  simp [loadVal, dropWs, wsChar]

/-- `loadVal` hands a digit-headed input to the number token parser. -/
theorem loadVal_numArm (f : Nat) {c : Char} (t : List Char) (h : isDigitCh c = true) :
    loadVal (f + 1) (c :: t) = numToken (c :: t) := by
  obtain ⟨hws, hbr, hbc, hcm, hcl, hdot, hmin, hn, ht, hf, hq, hlb, hlc⟩ := digit_props h
  simp only [loadVal]
  rw [dropWs_cons_nws hws]
  simp [hn, ht, hf, hq, hlb, hlc, h]

theorem loadVal_nullArm (f : Nat) (r : List Char) :
    loadVal (f + 1) ('n' :: 'u' :: 'l' :: 'l' :: r) = some (.null, r) := by
  simp only [loadVal]
  rw [dropWs_cons_nws (by decide)]
  rfl

theorem loadVal_trueArm (f : Nat) (r : List Char) :
    loadVal (f + 1) ('t' :: 'r' :: 'u' :: 'e' :: r) = some (.bool true, r) := by
  simp only [loadVal]
  rw [dropWs_cons_nws (by decide)]
  rfl

theorem loadVal_falseArm (f : Nat) (r : List Char) :
    loadVal (f + 1) ('f' :: 'a' :: 'l' :: 's' :: 'e' :: r) = some (.bool false, r) := by
  simp only [loadVal]
  rw [dropWs_cons_nws (by decide)]
  rfl

theorem loadVal_strArm (f : Nat) (r : List Char) :
    loadVal (f + 1) ('"' :: r)
      = (match strBody [] r with
         | some (s, r1) => some (.str s, r1)
         | none => none) := by
  simp only [loadVal]
  rw [dropWs_cons_nws (by decide)]
  rfl

theorem loadVal_arrNil (f : Nat) {r0 r1 : List Char} (hdw : dropWs r0 = ']' :: r1) :
    loadVal (f + 1) ('[' :: r0) = some (.arr [], r1) := by
  simp only [loadVal]
  rw [dropWs_cons_nws (by decide)]
  show (match dropWs r0 with
        | [] => none
        | c :: r1 =>
            if (c == ']') = true then some (JValue.arr [], r1)
            else
              match loadArrItems f (c :: r1) with
              | some (vs, r2) => some (JValue.arr vs, r2)
              | none => none) = _
  rw [hdw]
  simp

theorem loadVal_arrStep (f : Nat) {c : Char} {r0 r1 : List Char}
    (hdw : dropWs r0 = c :: r1) (hc : (c == ']') = false) :
    loadVal (f + 1) ('[' :: r0)
      = (match loadArrItems f (c :: r1) with
         | some (vs, r2) => some (.arr vs, r2)
         | none => none) := by
  simp only [loadVal]
  rw [dropWs_cons_nws (by decide)]
  show (match dropWs r0 with
        | [] => none
        | c :: r1 =>
            if (c == ']') = true then some (JValue.arr [], r1)
            else
              match loadArrItems f (c :: r1) with
              | some (vs, r2) => some (JValue.arr vs, r2)
              | none => none) = _
  rw [hdw]
  simp [hc]

theorem loadVal_objNil (f : Nat) {r0 r1 : List Char} (hdw : dropWs r0 = '}' :: r1) :
    loadVal (f + 1) ('{' :: r0) = some (.obj [], r1) := by
  simp only [loadVal]
  rw [dropWs_cons_nws (by decide)]
  show (match dropWs r0 with
        | [] => none
        | c :: r1 =>
            if (c == '}') = true then some (JValue.obj [], r1)
            else
              match loadObjItems f (c :: r1) with
              | some (kvs, r2) => some (JValue.obj kvs, r2)
              | none => none) = _
  rw [hdw]
  simp

theorem loadVal_objStep (f : Nat) {c : Char} {r0 r1 : List Char}
    (hdw : dropWs r0 = c :: r1) (hc : (c == '}') = false) :
    loadVal (f + 1) ('{' :: r0)
      = (match loadObjItems f (c :: r1) with
         | some (kvs, r2) => some (.obj kvs, r2)
         | none => none) := by
  simp only [loadVal]
  rw [dropWs_cons_nws (by decide)]
  show (match dropWs r0 with
        | [] => none
        | c :: r1 =>
            if (c == '}') = true then some (JValue.obj [], r1)
            else
              match loadObjItems f (c :: r1) with
              | some (kvs, r2) => some (JValue.obj kvs, r2)
              | none => none) = _
  rw [hdw]
  simp [hc]

theorem loadArrItems_succ (f : Nat) (cs : List Char) :
    loadArrItems (f + 1) cs
      = (match loadVal f cs with
         | none => none
         | some (v, r) =>
             match dropWs r with
             | ',' :: r1 =>
                 (match loadArrItems f r1 with
                  | some (vs, r2) => some (v :: vs, r2)
                  | none => none)
             | ']' :: r1 => some ([v], r1)
             | _ => none) := rfl

theorem loadObjItems_succ (f : Nat) (cs : List Char) :
    loadObjItems (f + 1) cs
      = (match dropWs cs with
         | '"' :: r =>
             (match strBody [] r with
              | none => none
              | some (k, r1) =>
                  match dropWs r1 with
                  | ':' :: r2 =>
                      (match loadVal f r2 with
                       | none => none
                       | some (v, r3) =>
                           match dropWs r3 with
                           | ',' :: r4 =>
                               (match loadObjItems f r4 with
                                | some (kvs, r5) => some ((k, v) :: kvs, r5)
                                | none => none)
                           | '}' :: r4 => some ([(k, v)], r4)
                           | _ => none)
                  | _ => none)
         | _ => none) := rfl

mutual

/-- The codec round trip for one value: parsing its serialized form (with any
non-number-extending remainder) recovers it exactly. -/
theorem rtVal : ∀ (v : JValue) (lvl fuel : Nat) (rest : List Char),
    jwf v = true → (serVal lvl v).length < fuel → numBreak rest = true →
    loadVal fuel (serVal lvl v ++ rest) = some (v, rest)
  | .null, lvl, fuel, rest, _, hf, _ => by
      cases fuel with
      | zero => exact absurd hf (Nat.not_lt_zero _)
      | succ f =>
          simp only [serVal, List.cons_append, List.nil_append]
          exact loadVal_nullArm f rest
  | .bool true, lvl, fuel, rest, _, hf, _ => by
      cases fuel with
      | zero => exact absurd hf (Nat.not_lt_zero _)
      | succ f =>
          simp only [serVal, List.cons_append, List.nil_append]
          exact loadVal_trueArm f rest
  | .bool false, lvl, fuel, rest, _, hf, _ => by
      cases fuel with
      | zero => exact absurd hf (Nat.not_lt_zero _)
      | succ f =>
          simp only [serVal, List.cons_append, List.nil_append]
          exact loadVal_falseArm f rest
  | .int n, lvl, fuel, rest, _, hf, hr => by
      cases fuel with
      | zero => exact absurd hf (Nat.not_lt_zero _)
      | succ f =>
          simp only [serVal]
          have key := numToken_intChars n rest hr
          by_cases hn : n < 0
          · rw [intChars, if_pos hn] at key ⊢
            simp only [List.cons_append] at key ⊢
            rw [loadVal_minusArm, key]
          · rw [intChars, if_neg hn] at key ⊢
            obtain ⟨c, t, hct, hcd⟩ := natChars_head n.natAbs
            rw [hct] at key ⊢
            simp only [List.cons_append] at key ⊢
            rw [loadVal_numArm f _ hcd, key]
  | .dec m e, lvl, fuel, rest, hwf, hf, hr => by
      cases fuel with
      | zero => exact absurd hf (Nat.not_lt_zero _)
      | succ f =>
          have he : 0 < e := by simpa [jwf] using hwf
          simp only [serVal]
          have key := numToken_decChars m e he rest hr
          by_cases hm : m < 0
          · rw [decChars_neg m e hm] at key ⊢
            simp only [List.cons_append] at key ⊢
            rw [loadVal_minusArm, key]
          · rw [show m = ((m.natAbs : Int)) from (Int.natAbs_of_nonneg (by omega)).symm] at key ⊢
            obtain ⟨c, t, hct, hcd⟩ := decChars_nonneg_head m.natAbs e
            rw [hct] at key ⊢
            simp only [List.cons_append] at key ⊢
            rw [loadVal_numArm f _ hcd, key]
  | .str s, lvl, fuel, rest, _, hf, _ => by
      cases fuel with
      | zero => exact absurd hf (Nat.not_lt_zero _)
      | succ f =>
          simp only [serVal, encStr, List.cons_append, List.append_assoc,
            List.singleton_append, List.nil_append]
          rw [loadVal_strArm, strBody_encStr]
  | .arr [], lvl, fuel, rest, _, hf, _ => by
      cases fuel with
      | zero => exact absurd hf (Nat.not_lt_zero _)
      | succ f =>
          simp only [serVal, List.cons_append, List.nil_append]
          exact loadVal_arrNil f (dropWs_cons_nws (by decide) rest)
  | .arr (x :: xs), lvl, fuel, rest, hwf, hf, _ => by
      cases fuel with
      | zero => exact absurd hf (Nat.not_lt_zero _)
      | succ f =>
          have hwfl : jwfArr (x :: xs) = true := by simpa [jwf] using hwf
          have hlen : (serVal (lvl + 1) x).length + (serTail lvl xs).length < f := by
            have hflen := hf
            rw [serVal] at hflen
            simp only [List.length_cons, List.length_append] at hflen
            omega
          simp only [serVal, List.cons_append, List.append_assoc]
          obtain ⟨c, t, hct, hws, hbr, hbc⟩ := serVal_head (lvl + 1) x
          have hdw : dropWs ('\n' :: (indentChars (lvl + 1)
              ++ (serVal (lvl + 1) x ++ (serTail lvl xs ++ rest))))
              = c :: (t ++ (serTail lvl xs ++ rest)) := by
            rw [dropWs_nl, dropWs_indent, dropWs_serVal, hct, List.cons_append]
          rw [loadVal_arrStep f hdw (by simpa using hbr)]
          rw [← List.cons_append, ← hct, rtArr x xs lvl f rest hwfl hlen]
  | .obj [], lvl, fuel, rest, _, hf, _ => by
      cases fuel with
      | zero => exact absurd hf (Nat.not_lt_zero _)
      | succ f =>
          simp only [serVal, List.cons_append, List.nil_append]
          exact loadVal_objNil f (dropWs_cons_nws (by decide) rest)
  | .obj ((k1, v1) :: kvs), lvl, fuel, rest, hwf, hf, _ => by
      cases fuel with
      | zero => exact absurd hf (Nat.not_lt_zero _)
      | succ f =>
          have hwfl : jwfObj ((k1, v1) :: kvs) = true := by
            rw [jwf] at hwf
            exact hwf
          have hlen : (encStr k1).length + (serVal (lvl + 1) v1).length
              + (serObjTail lvl kvs).length < f := by
            have hflen := hf
            rw [serVal] at hflen
            simp only [List.length_cons, List.length_append] at hflen
            omega
          simp only [serVal, List.cons_append, List.append_assoc]
          have hdw : dropWs ('\n' :: (indentChars (lvl + 1)
              ++ (encStr k1 ++ ':' :: ' ' :: (serVal (lvl + 1) v1
                  ++ (serObjTail lvl kvs ++ rest)))))
              = '"' :: (k1.toList.flatMap escChar ++ ('"' :: (':' :: ' '
                  :: (serVal (lvl + 1) v1 ++ (serObjTail lvl kvs ++ rest))))) := by
            rw [dropWs_nl, dropWs_indent]
            simp only [encStr, List.cons_append, List.append_assoc, List.singleton_append,
              List.nil_append]
            rw [dropWs_cons_nws (by decide)]
          rw [loadVal_objStep f hdw (by decide)]
          have key := rtObj k1 v1 kvs lvl f rest hwfl hlen
          rw [key]
  termination_by v _ _ _ _ _ _ => 2 * sizeOf v
  decreasing_by all_goals (simp_wf; omega)

/-- The round trip for the remainder of a nonempty array. -/
theorem rtArr : ∀ (x : JValue) (xs : List JValue) (lvl fuel : Nat) (rest : List Char),
    jwfArr (x :: xs) = true →
    (serVal (lvl + 1) x).length + (serTail lvl xs).length < fuel →
    loadArrItems fuel (serVal (lvl + 1) x ++ (serTail lvl xs ++ rest)) = some (x :: xs, rest)
  | x, [], lvl, fuel, rest, hwf, hf => by
      cases fuel with
      | zero => exact absurd hf (Nat.not_lt_zero _)
      | succ f =>
          obtain ⟨hwx, hwxs⟩ := jwfArr_cons hwf
          rw [loadArrItems_succ]
          have hlf : (serVal (lvl + 1) x).length < f := by
            rw [serTail] at hf
            simp only [List.length_cons, List.length_append] at hf
            omega
          have hv := rtVal x (lvl + 1) f (serTail lvl [] ++ rest) hwx hlf
              (numBreak_serTail lvl [] rest)
          have hdw : dropWs (serTail lvl [] ++ rest) = ']' :: rest := by
            rw [serTail]
            simp only [List.cons_append, List.append_assoc, List.singleton_append]
            rw [dropWs_nl, dropWs_indent]
            exact dropWs_cons_nws (by decide) rest
          simp only [hv, hdw]
  | x, y :: ys, lvl, fuel, rest, hwf, hf => by
      cases fuel with
      | zero => exact absurd hf (Nat.not_lt_zero _)
      | succ f =>
          obtain ⟨hwx, hwxs⟩ := jwfArr_cons hwf
          rw [loadArrItems_succ]
          have hser : serTail lvl (y :: ys)
              = ',' :: '\n' :: (indentChars (lvl + 1)
                  ++ (serVal (lvl + 1) y ++ serTail lvl ys)) := by
            rw [serTail]
            simp only [List.cons_append, List.append_assoc]
          have hlf : (serVal (lvl + 1) x).length < f := by
            rw [hser] at hf
            simp only [List.length_cons, List.length_append] at hf
            omega
          have hlf2 : (serVal (lvl + 1) y).length + (serTail lvl ys).length < f := by
            rw [hser] at hf
            simp only [List.length_cons, List.length_append] at hf
            omega
          have hv := rtVal x (lvl + 1) f (serTail lvl (y :: ys) ++ rest) hwx hlf
              (numBreak_serTail lvl (y :: ys) rest)
          have hdw : dropWs (serTail lvl (y :: ys) ++ rest)
              = ',' :: ('\n' :: (indentChars (lvl + 1)
                  ++ (serVal (lvl + 1) y ++ (serTail lvl ys ++ rest)))) := by
            rw [hser]
            simp only [List.cons_append, List.append_assoc]
            exact dropWs_cons_nws (by decide) _
          have hws : loadArrItems f ('\n' :: (indentChars (lvl + 1)
              ++ (serVal (lvl + 1) y ++ (serTail lvl ys ++ rest))))
              = loadArrItems f (serVal (lvl + 1) y ++ (serTail lvl ys ++ rest)) := by
            apply loadArrItems_ws
            rw [dropWs_nl, dropWs_indent]
          have hrec := rtArr y ys lvl f rest hwxs hlf2
          simp only [hv, hdw, hws, hrec]
  termination_by x xs _ _ _ _ _ => 2 * (sizeOf x + sizeOf xs) + 1
  decreasing_by all_goals (simp_wf; omega)

/-- The round trip for the remainder of a nonempty object. -/
theorem rtObj : ∀ (k : String) (v : JValue) (fs : List (String × JValue))
    (lvl fuel : Nat) (rest : List Char),
    jwfObj ((k, v) :: fs) = true →
    (encStr k).length + (serVal (lvl + 1) v).length + (serObjTail lvl fs).length < fuel →
    loadObjItems fuel ('"' :: (k.toList.flatMap escChar ++ ('"' :: (':' :: ' '
        :: (serVal (lvl + 1) v ++ (serObjTail lvl fs ++ rest))))))
      = some ((k, v) :: fs, rest)
  | k, v, [], lvl, fuel, rest, hwf, hf => by
      cases fuel with
      | zero => exact absurd hf (Nat.not_lt_zero _)
      | succ f =>
          obtain ⟨hwv, hwfs⟩ := jwfObj_cons hwf
          have henc : 2 ≤ (encStr k).length := by
            rw [encStr]
            simp
          rw [loadObjItems_succ, dropWs_cons_nws (by decide)]
          have hcol : dropWs (':' :: ' ' :: (serVal (lvl + 1) v ++ (serObjTail lvl [] ++ rest)))
              = ':' :: ' ' :: (serVal (lvl + 1) v ++ (serObjTail lvl [] ++ rest)) :=
            dropWs_cons_nws (by decide) _
          have hlv : (serVal (lvl + 1) v).length < f := by
            rw [serObjTail] at hf
            simp only [List.length_cons, List.length_append] at hf
            omega
          have hload : loadVal f (' ' :: (serVal (lvl + 1) v ++ (serObjTail lvl [] ++ rest)))
              = some (v, serObjTail lvl [] ++ rest) := by
            rw [loadVal_ws (show dropWs (' ' :: (serVal (lvl + 1) v
                ++ (serObjTail lvl [] ++ rest)))
                = dropWs (serVal (lvl + 1) v ++ (serObjTail lvl [] ++ rest)) by
              simp [dropWs, wsChar]) f]
            exact rtVal v (lvl + 1) f (serObjTail lvl [] ++ rest) hwv hlv
              (numBreak_serObjTail lvl [] rest)
          have hdw : dropWs (serObjTail lvl [] ++ rest) = '}' :: rest := by
            rw [serObjTail]
            simp only [List.cons_append, List.append_assoc, List.singleton_append]
            rw [dropWs_nl, dropWs_indent]
            exact dropWs_cons_nws (by decide) rest
          simp only [strBody_encStr, hcol, hload, hdw]
  | k, v, (k2, v2) :: fs2, lvl, fuel, rest, hwf, hf => by
      cases fuel with
      | zero => exact absurd hf (Nat.not_lt_zero _)
      | succ f =>
          obtain ⟨hwv, hwfs⟩ := jwfObj_cons hwf
          have henc : 2 ≤ (encStr k).length := by
            rw [encStr]
            simp
          rw [loadObjItems_succ, dropWs_cons_nws (by decide)]
          have hcol : dropWs (':' :: ' ' :: (serVal (lvl + 1) v
              ++ (serObjTail lvl ((k2, v2) :: fs2) ++ rest)))
              = ':' :: ' ' :: (serVal (lvl + 1) v
                  ++ (serObjTail lvl ((k2, v2) :: fs2) ++ rest)) :=
            dropWs_cons_nws (by decide) _
          have hser : serObjTail lvl ((k2, v2) :: fs2)
              = ',' :: '\n' :: (indentChars (lvl + 1)
                  ++ (encStr k2 ++ ':' :: ' ' :: (serVal (lvl + 1) v2
                      ++ serObjTail lvl fs2))) := by
            rw [serObjTail]
            simp only [List.cons_append, List.append_assoc]
          have hlv : (serVal (lvl + 1) v).length < f := by
            rw [hser] at hf
            simp only [List.length_cons, List.length_append] at hf
            omega
          have hlen2 : (encStr k2).length + (serVal (lvl + 1) v2).length
              + (serObjTail lvl fs2).length < f := by
            rw [hser] at hf
            simp only [List.length_cons, List.length_append] at hf
            omega
          have hload : loadVal f (' ' :: (serVal (lvl + 1) v
              ++ (serObjTail lvl ((k2, v2) :: fs2) ++ rest)))
              = some (v, serObjTail lvl ((k2, v2) :: fs2) ++ rest) := by
            rw [loadVal_ws (show dropWs (' ' :: (serVal (lvl + 1) v
                ++ (serObjTail lvl ((k2, v2) :: fs2) ++ rest)))
                = dropWs (serVal (lvl + 1) v ++ (serObjTail lvl ((k2, v2) :: fs2) ++ rest)) by
              simp [dropWs, wsChar]) f]
            exact rtVal v (lvl + 1) f (serObjTail lvl ((k2, v2) :: fs2) ++ rest) hwv hlv
              (numBreak_serObjTail lvl ((k2, v2) :: fs2) rest)
          have hdw : dropWs (serObjTail lvl ((k2, v2) :: fs2) ++ rest)
              = ',' :: ('\n' :: (indentChars (lvl + 1)
                  ++ (encStr k2 ++ ':' :: ' ' :: (serVal (lvl + 1) v2
                      ++ (serObjTail lvl fs2 ++ rest))))) := by
            rw [hser]
            simp only [List.cons_append, List.append_assoc]
            exact dropWs_cons_nws (by decide) _
          have hwsx : loadObjItems f ('\n' :: (indentChars (lvl + 1)
              ++ (encStr k2 ++ ':' :: ' ' :: (serVal (lvl + 1) v2
                  ++ (serObjTail lvl fs2 ++ rest)))))
              = loadObjItems f ('"' :: (k2.toList.flatMap escChar ++ ('"' :: (':' :: ' '
                  :: (serVal (lvl + 1) v2 ++ (serObjTail lvl fs2 ++ rest)))))) := by
            apply loadObjItems_ws
            rw [dropWs_nl, dropWs_indent]
            simp only [encStr, List.cons_append, List.append_assoc, List.singleton_append,
              List.nil_append]
          have hrec := rtObj k2 v2 fs2 lvl f rest hwfs hlen2
          simp only [strBody_encStr, hcol, hload, hdw, hwsx, hrec]
  termination_by _ v fs _ _ _ _ _ => 2 * (sizeOf v + sizeOf fs) + 1
  decreasing_by all_goals (simp_wf; omega)

end

/-- The JSON codec round trip: re-parsing a serialized well-formed value
recovers it exactly. -/
theorem loads_dumps (v : JValue) (h : jwf v = true) : loads (dumps v) = some v := by
  rw [loads]
  have hlist : (dumps v).toList = serVal 0 v := rfl
  have hlen : (dumps v).length = (serVal 0 v).length := rfl
  rw [hlist, hlen]
  have key := rtVal v 0 ((serVal 0 v).length + 1) [] h (by omega) (by decide)
  rw [List.append_nil] at key
  rw [key]
  rfl

/-! ## `SceneValidator.generate_report` and `_generate_html_report`
(validator.py lines 162-279)

`_generate_html_report` builds two HTML fragments with f-strings and then
substitutes seven keyword arguments into a fixed template via `str.format`.
`pyFormat` models `str.format`: literal text is copied, `{{`/`}}` become
literal braces, and a `{name}` or `{name:spec}` field is replaced by the
argument bound to `name` — a name bound to no argument raises `KeyError`.
(Every field of the template that names a real argument has an empty spec, so
spec application beyond `str()` is not modelled.)  Values are rendered with
`pyStr`, Python's `str()` for JSON-derived values; `pyStrRepr` models `repr()`
of a string up to the common escapes. -/

/-- Python's `repr()` of a string: quote choice and the common escapes
(backslash, the quote character, newline, carriage return, tab); other
characters are kept verbatim. -/
def pyStrRepr (s : String) : String :=
  let q : Char := if s.toList.contains '\'' && !(s.toList.contains '"') then '"' else '\''
  let esc : Char → String := fun c =>
    if c = '\\' then "\\\\"
    else if c = q then "\\" ++ String.singleton q
    else if c = '\n' then "\\n"
    else if c = '\r' then "\\r"
    else if c = '\t' then "\\t"
    else String.singleton c
  String.singleton q ++ String.join (s.toList.map esc) ++ String.singleton q

mutual

/-- Python's `str()` of a JSON-derived value, as interpolated by f-strings. -/
def pyStr : JValue → String
  | .null => "None"
  | .bool true => "True"
  | .bool false => "False"
  | .int n => ⟨intChars n⟩
  | .dec m e => ⟨decChars m e⟩
  | .str s => s
  | .arr xs => "[" ++ pyReprSeq xs ++ "]"
  | .obj fs => "\x7b" ++ pyReprFields fs ++ "\x7d"

/-- Python's `repr()` of a JSON-derived value (element rendering inside
containers). -/
def pyRepr : JValue → String
  | .null => "None"
  | .bool true => "True"
  | .bool false => "False"
  | .int n => ⟨intChars n⟩
  | .dec m e => ⟨decChars m e⟩
  | .str s => pyStrRepr s
  | .arr xs => "[" ++ pyReprSeq xs ++ "]"
  | .obj fs => "\x7b" ++ pyReprFields fs ++ "\x7d"

/-- Comma-separated `repr`s of list elements. -/
def pyReprSeq : List JValue → String
  | [] => ""
  | [x] => pyRepr x
  | x :: xs => pyRepr x ++ ", " ++ pyReprSeq xs

/-- Comma-separated `key: value` `repr`s of dict entries. -/
def pyReprFields : List (String × JValue) → String
  | [] => ""
  | [kv] => pyStrRepr kv.1 ++ ": " ++ pyRepr kv.2
  | kv :: fs => pyStrRepr kv.1 ++ ": " ++ pyRepr kv.2 ++ ", " ++ pyReprFields fs

end

/-- Python's `for x in v`: lists yield elements, strings yield one-character
strings, dicts yield their keys; everything else raises `TypeError`. -/
def pyIter : JValue → Except String (List JValue)
  | .arr xs => .ok xs
  | .str s => .ok (s.toList.map (fun c => .str (String.singleton c)))
  | .obj fs => .ok (fs.map (fun kv => .str kv.1))
  | other => .error ("TypeError: " ++ pyTypeName other ++ " object is not iterable")

/-- Skip a format spec up to its closing `}`. -/
def fieldSpecSkip : List Char → Option (List Char)
  | [] => none
  | '}' :: rest => some rest
  | _ :: rest => fieldSpecSkip rest

/-- The name of a `str.format` replacement field, read up to `:` or `}`; a
`:` starts the format spec, which is skipped up to the closing `}`. -/
def fieldName (acc : List Char) : List Char → Option (String × List Char)
  | [] => none
  | '}' :: rest => some (⟨acc.reverse⟩, rest)
  | ':' :: rest => (fieldSpecSkip rest).map (fun rem => (⟨acc.reverse⟩, rem))
  | c :: rest => fieldName (c :: acc) rest

/-- One scan of `str.format` over the template (fuel-bounded; the fuel always
exceeds the template length at the top level). -/
def pyFormatAux (kwargs : List (String × JValue)) : Nat → List Char → Except String String
  | 0, _ => .error "ValueError: format ran out of fuel"
  | _, [] => .ok ""
  | f + 1, '{' :: '{' :: rest => (String.singleton '{' ++ ·) <$> pyFormatAux kwargs f rest
  | f + 1, '}' :: '}' :: rest => (String.singleton '}' ++ ·) <$> pyFormatAux kwargs f rest
  | f + 1, '{' :: rest =>
      (match fieldName [] rest with
       | none => .error "ValueError: expected closing brace in format string"
       | some (name, rem) =>
           match dictGet kwargs name with
           | none => .error ("KeyError: " ++ name)
           | some v => (pyStr v ++ ·) <$> pyFormatAux kwargs f rem)
  | _ + 1, '}' :: _ => .error "ValueError: single closing brace in format string"
  | f + 1, c :: rest => (String.singleton c ++ ·) <$> pyFormatAux kwargs f rest

/-- Python's `template.format(**kwargs)`. -/
def pyFormat (kwargs : List (String × JValue)) (template : String) : Except String String :=
  pyFormatAux kwargs (template.length + 1) template.toList

/-- The fixed HTML template of `_generate_html_report`, verbatim (the CSS
braces are live `str.format` syntax in the source, not escaped `{{`/`}}`). -/
def htmlTemplate : String :=
  String.intercalate "\n" [
    "",
    "        <!DOCTYPE html>",
    "        <html>",
    "        <head>",
    "            <title>Scene Validation Report</title>",
    "            <style>",
    "                body \x7b font-family: Arial, sans-serif; margin: 20px; \x7d",
    "                h1 \x7b color: #333; \x7d",
    "                .summary \x7b background-color: #f5f5f5; padding: 15px; border-radius: 5px; \x7d",
    "                .valid \x7b color: green; \x7d",
    "                .invalid \x7b color: red; \x7d",
    "                .warning \x7b color: orange; \x7d",
    "                .scene \x7b margin: 20px 0; padding: 10px; border: 1px solid #ddd; border-radius: 5px; \x7d",
    "                .issue-list \x7b margin-left: 20px; \x7d",
    "            </style>",
    "        </head>",
    "        <body>",
    "            <h1>Scene Validation Report</h1>",
    "            <div class=\"summary\">",
    "                <h2>Summary</h2>",
    "                <p>Project ID: \x7bproject_id\x7d</p>",
    "                <p>Timestamp: \x7btimestamp\x7d</p>",
    "                <p>Total Scenes: \x7bscene_count\x7d</p>",
    "                <p>Valid Scenes: <span class=\"valid\">\x7bvalid_scenes\x7d</span></p>",
    "                <p>Invalid Scenes: <span class=\"invalid\">\x7binvalid_scenes\x7d</span></p>",
    "            </div>",
    "            ",
    "            <h2>Scene Details</h2>",
    "            \x7bscene_results\x7d",
    "            ",
    "            <h2>Project-Level Issues</h2>",
    "            <ul class=\"issue-list\">",
    "                \x7bproject_issues\x7d",
    "            </ul>",
    "        </body>",
    "        </html>",
    "        "]

/-- The `<li>` items for one issue list of the per-scene f-string block. -/
def liItems (items : List JValue) : String :=
  String.join (items.map (fun i => "<li>" ++ pyStr i ++ "</li>"))

/-- The per-scene HTML fragment built by the f-string inside the
`for scene in validation_results.get("scene_results", [])` loop. -/
def sceneBlockHtml (scene : JValue) : Except String String := do
  let validV ← pyGetD scene "valid" (.bool true)
  let sceneClass := if pyTruthy validV then "valid" else "invalid"
  let sidV ← pyGetD scene "scene_id" (.str "Unknown")
  let validV2 ← pyGetD scene "valid" (.bool true)
  let errsV ← pyGetD scene "errors" (.arr [])
  let errs ← pyIter errsV
  let warnsV ← pyGetD scene "warnings" (.arr [])
  let warns ← pyIter warnsV
  let suggsV ← pyGetD scene "suggestions" (.arr [])
  let suggs ← pyIter suggsV
  pure (String.intercalate "\n" [
    "",
    "            <div class=\"scene\">",
    "                <h3>Scene: " ++ pyStr sidV ++ " - <span class=\"" ++ sceneClass ++ "\">",
    "                    " ++ (if pyTruthy validV2 then "Valid" else "Invalid") ++ "</span></h3>",
    "                ",
    "                <h4>Errors:</h4>",
    "                <ul class=\"issue-list\">",
    "                    " ++ liItems errs,
    "                </ul>",
    "                ",
    "                <h4>Warnings:</h4>",
    "                <ul class=\"issue-list warning\">",
    "                    " ++ liItems warns,
    "                </ul>",
    "                ",
    "                <h4>Suggestions:</h4>",
    "                <ul class=\"issue-list\">",
    "                    " ++ liItems suggs,
    "                </ul>",
    "            </div>",
    "            "])

/-- `SceneValidator._generate_html_report(validation_results)`: build the two
fragments, then substitute into the template with `str.format`.  A raised
Python exception is the `.error` case. -/
def htmlReport (validationResults : JValue) : Except String String := do
  let scenesV ← pyGetD validationResults "scene_results" (.arr [])
  let scenes ← pyIter scenesV
  let blocks ← scenes.mapM sceneBlockHtml
  let sceneResultsHtml := String.join blocks
  let issuesV ← pyGetD validationResults "project_level_issues" (.arr [])
  let issues ← pyIter issuesV
  let projectIssuesHtml := String.join (issues.map (fun i => "<li>" ++ pyStr i ++ "</li>"))
  let pid ← pyGetD validationResults "project_id" (.str "Unknown")
  let ts ← pyGetD validationResults "timestamp" (.str "Unknown")
  let sc ← pyGetD validationResults "scene_count" (.int 0)
  let vs ← pyGetD validationResults "valid_scenes" (.int 0)
  let ivs ← pyGetD validationResults "invalid_scenes" (.int 0)
  pyFormat [("project_id", pid), ("timestamp", ts), ("scene_count", sc),
            ("valid_scenes", vs), ("invalid_scenes", ivs),
            ("scene_results", .str sceneResultsHtml),
            ("project_issues", .str projectIssuesHtml)]
    htmlTemplate

/-- Python's `str.lower()` (over the ASCII range the format names use). -/
def strLower (s : String) : String :=
  ⟨s.toList.map Char.toLower⟩

/-- `SceneValidator.generate_report(validation_results)` with the configured
`report_format`: lowercase it, render HTML for `"html"`, pretty-printed JSON
for `"json"`, and fall back to the same JSON for any unknown format (after a
logged warning). -/
def generateReport (reportFormat : String) (validationResults : JValue) : Except String String :=
  let formatType := strLower reportFormat
  if formatType = "html" then htmlReport validationResults
  else if formatType = "json" then .ok (dumps validationResults)
  else .ok (dumps validationResults)

/-! ## `GeminiAnalyzer` (gemini_integration.py)

The network is an oracle `net : String → Except String JValue` (the response
for a prompt, or a transport error).  Each operation additionally reports
whether the network was touched, so "no call is made without a credential"
is a provable statement. -/

/-- Python's `x[0]` on a JSON-derived value. -/
def pyIndex0 : JValue → Except String JValue
  | .arr (x :: _) => .ok x
  | .arr [] => .error "IndexError: list index out of range"
  | .str s =>
      (match s.toList with
       | c :: _ => .ok (.str (String.singleton c))
       | [] => .error "IndexError: string index out of range")
  | .obj _ => .error "KeyError: 0"
  | other => .error ("TypeError: " ++ pyTypeName other ++ " object is not subscriptable")

/-- Python's `x[key]` with a string key. -/
def pyGetItem (v : JValue) (key : String) : Except String JValue :=
  match v with
  | .obj fields =>
      (match dictGet fields key with
       | some w => .ok w
       | none => .error ("KeyError: " ++ key))
  | .str _ => .error "TypeError: string indices must be integers"
  | .arr _ => .error "TypeError: list indices must be integers or slices, not str"
  | other => .error ("TypeError: " ++ pyTypeName other ++ " object is not subscriptable")

/-- Whether `needle` starts `hay`. -/
def charsStartWith : List Char → List Char → Bool
  | [], _ => true
  | _ :: _, [] => false
  | a :: as, b :: bs => a == b && charsStartWith as bs

/-- Whether `needle` occurs contiguously in `hay` (Python `sub in str`). -/
def charsContain (needle : List Char) : List Char → Bool
  | [] => needle.isEmpty
  | c :: rest => charsStartWith needle (c :: rest) || charsContain needle rest

/-- Python's `key in v` for a string `key`: dict key lookup, list membership
(a string only ever equals a string), substring test on strings; `TypeError`
on scalars. -/
def pyContains (v : JValue) (key : String) : Except String Bool :=
  match v with
  | .obj fields => .ok (dictGet fields key).isSome
  | .arr xs => .ok (xs.any (fun x => match x with | .str s => s == key | _ => false))
  | .str s => .ok (charsContain key.toList s.toList)
  | other => .error ("TypeError: argument of type " ++ pyTypeName other ++ " is not a container")

/-- The index of the last occurrence of `c` (Python `str.rfind`, `none` for
`-1`). -/
def lastIdxOf (c : Char) : List Char → Option Nat
  | [] => none
  | x :: xs =>
      match lastIdxOf c xs with
      | some i => some (i + 1)
      | none => if x == c then some 0 else none

/-- `GeminiAnalyzer._parse_dialogue_analysis`, inside its `try`: the `error`
short-circuit, the `candidates/content/parts/text` extraction, the first-`{` /
last-`}` bracketing, and the `json.loads` of the bracketed substring with
`success = True` added on success. -/
def parseDialogueGo (response : JValue) : Except String JValue := do
  let hasErr ← pyContains response "error"
  if hasErr then
    let ev ← pyGetItem response "error"
    return .obj [("success", .bool false), ("error", ev)]
  else
    let cands ← pyGetD response "candidates" (.arr [.obj []])
    let c0 ← pyIndex0 cands
    let content ← pyGetD c0 "content" (.obj [])
    let parts ← pyGetD content "parts" (.arr [.obj []])
    let p0 ← pyIndex0 parts
    let textV ← pyGetD p0 "text" (.str "")
    let t ← match textV with
      | .str s => Except.ok s
      | other => Except.error ("AttributeError: " ++ pyTypeName other
          ++ " object has no attribute find")
    let jsonStart : Option Nat := List.findIdx? (· == '{') t.toList
    let jsonLast : Option Nat := lastIdxOf '}' t.toList
    match jsonStart, jsonLast with
    | some i, some j =>
        if i ≤ j then
          let jsonStr : String := ⟨(t.toList.drop i).take (j + 1 - i)⟩
          match loads jsonStr with
          | some (.obj fs) => return .obj (dictSet fs "success" (.bool true))
          | some other => Except.error ("TypeError: " ++ pyTypeName other
              ++ " object does not support item assignment")
          | none => Except.error "JSONDecodeError: could not decode the bracketed substring"
        else
          return .obj [("success", .bool false),
                       ("error", .str "Could not extract JSON from response"),
                       ("raw_response", .str t)]
    | _, _ =>
        return .obj [("success", .bool false),
                     ("error", .str "Could not extract JSON from response"),
                     ("raw_response", .str t)]

/-- `GeminiAnalyzer._parse_dialogue_analysis(response)`: the `try` body, with
any raised exception caught and turned into the failure record that carries
the whole response. -/
def parseDialogueAnalysis (response : JValue) : JValue :=
  match parseDialogueGo response with
  | .ok r => r
  | .error e => .obj [("success", .bool false), ("error", .str e), ("raw_response", response)]

/-- `_parse_emotion_analysis` delegates to `_parse_dialogue_analysis`. -/
def parseEmotionAnalysis (response : JValue) : JValue :=
  parseDialogueAnalysis response

/-- `_parse_narrative_analysis` delegates to `_parse_dialogue_analysis`. -/
def parseNarrativeAnalysis (response : JValue) : JValue :=
  parseDialogueAnalysis response

/-- `self.api_key = api_key or os.environ.get("GEMINI_API_KEY")`. -/
def geminiApiKey (passed env : Option String) : Option String :=
  match passed with
  | some k => if k = "" then env else some k
  | none => env

/-- Python truthiness of the stored key (`None` and `""` are falsy). -/
def keyTruthy : Option String → Bool
  | none => false
  | some k => k ≠ ""

/-- `GeminiAnalyzer._call_gemini_api(prompt)`: without a truthy key, return
the error dict before any network call; otherwise call the endpoint, turning
a transport error into an error dict.  The boolean records whether the
network was called. -/
def callGeminiApi (apiKey : Option String) (net : String → Except String JValue)
    (prompt : String) : JValue × Bool :=
  if keyTruthy apiKey then
    match net prompt with
    | .ok resp => (resp, true)
    | .error e => (.obj [("error", .str e)], true)
  else
    (.obj [("error", .str "No API key provided")], false)

/-- Python `xs[-5:]`. -/
def lastFive {α : Type} (xs : List α) : List α :=
  xs.drop (xs.length - 5)

/-- `GeminiAnalyzer._create_dialogue_prompt` (the joiner is the two-character
string `\n`, exactly as written in the source). -/
def createDialoguePrompt (character currentDialogue : String)
    (previousDialogues : List String) : String :=
  let previousSamples :=
    String.intercalate "\\n" ((lastFive previousDialogues).map (fun d => "- " ++ d))
  String.intercalate "\n" [
    "",
    "        As an expert in screenplay analysis, assess the dialogue consistency for the character " ++ character ++ ".",
    "        ",
    "        Previous dialogue examples:",
    "        " ++ previousSamples,
    "        ",
    "        Current dialogue:",
    "        \"" ++ currentDialogue ++ "\"",
    "        ",
    "        Please analyze if the current dialogue is consistent with the character's established voice, vocabulary, speech patterns, and personality traits.",
    "        ",
    "        Provide your analysis in JSON format with the following structure:",
    "        \x7b",
    "            \"is_consistent\": true/false,",
    "            \"confidence_score\": (float between 0-1),",
    "            \"inconsistency_reasons\": [\"reason1\", \"reason2\"],",
    "            \"suggestions\": [\"suggestion1\", \"suggestion2\"]",
    "        \x7d",
    "        "]

/-- `GeminiAnalyzer._create_emotion_prompt`; reading `scene_id`, `emotion`
and `context` from a non-dict history entry raises `AttributeError`. -/
def createEmotionPrompt (character currentEmotion : String)
    (previousEmotions : List JValue) : Except String String := do
  let items ← (lastFive previousEmotions).mapM (fun e => do
    let sid ← pyGetD e "scene_id" (.str "unknown")
    let emo ← pyGetD e "emotion" .null
    let ctx ← pyGetD e "context" (.str "N/A")
    pure ("- Scene " ++ pyStr sid ++ ": " ++ pyStr emo ++ " - Context: " ++ pyStr ctx))
  let emotionHistory := String.intercalate "\\n" items
  pure (String.intercalate "\n" [
    "",
    "        As an expert in character psychology and narrative continuity, assess the emotional continuity for the character " ++ character ++ ".",
    "        ",
    "        Previous emotional states:",
    "        " ++ emotionHistory,
    "        ",
    "        Current emotional state:",
    "        \"" ++ currentEmotion ++ "\"",
    "        ",
    "        Please analyze if the current emotional state is consistent with the character's emotional arc and if the transition from previous emotions is plausible.",
    "        ",
    "        Provide your analysis in JSON format with the following structure:",
    "        \x7b",
    "            \"is_consistent\": true/false,",
    "            \"confidence_score\": (float between 0-1),",
    "            \"inconsistency_reasons\": [\"reason1\", \"reason2\"],",
    "            \"justification\": \"explanation of your reasoning\",",
    "            \"suggestions\": [\"suggestion1\", \"suggestion2\"]",
    "        \x7d",
    "        "])

/-- `GeminiAnalyzer._create_narrative_prompt`. -/
def createNarrativePrompt (sceneDescription : String)
    (previousScenes : List JValue) : Except String String := do
  let items ← (lastFive previousScenes).mapM (fun s => do
    let sid ← pyGetD s "scene_id" (.str "unknown")
    let brief ← pyGetD s "brief_description" (.str "N/A")
    pure ("- Scene " ++ pyStr sid ++ ": " ++ pyStr brief))
  let sceneHistory := String.intercalate "\\n" items
  pure (String.intercalate "\n" [
    "",
    "        As an expert in narrative structure and screenplay analysis, assess the narrative coherence of the following scene.",
    "        ",
    "        Previous scenes:",
    "        " ++ sceneHistory,
    "        ",
    "        Current scene:",
    "        \"" ++ sceneDescription ++ "\"",
    "        ",
    "        Please analyze if the current scene maintains narrative coherence with the established story. Consider plot progression, character motivations, and logical continuity.",
    "        ",
    "        Provide your analysis in JSON format with the following structure:",
    "        \x7b",
    "            \"is_coherent\": true/false,",
    "            \"confidence_score\": (float between 0-1),",
    "            \"coherence_issues\": [\"issue1\", \"issue2\"],",
    "            \"plot_continuity_score\": (float between 0-1),",
    "            \"character_motivation_score\": (float between 0-1),",
    "            \"logical_consistency_score\": (float between 0-1),",
    "            \"suggestions\": [\"suggestion1\", \"suggestion2\"]",
    "        \x7d",
    "        "])

/-- `GeminiAnalyzer.analyze_dialogue_consistency`: build the prompt, call the
API, parse the response.  The boolean records whether the network was
called. -/
def analyzeDialogueConsistency (apiKey : Option String)
    (net : String → Except String JValue) (character currentDialogue : String)
    (previousDialogues : List String) : JValue × Bool :=
  let prompt := createDialoguePrompt character currentDialogue previousDialogues
  let (response, called) := callGeminiApi apiKey net prompt
  (parseDialogueAnalysis response, called)

/-- `GeminiAnalyzer.analyze_emotional_continuity`. -/
def analyzeEmotionalContinuity (apiKey : Option String)
    (net : String → Except String JValue) (character currentEmotion : String)
    (previousEmotions : List JValue) : Except String (JValue × Bool) := do
  let prompt ← createEmotionPrompt character currentEmotion previousEmotions
  let (response, called) := callGeminiApi apiKey net prompt
  pure (parseEmotionAnalysis response, called)

/-- `GeminiAnalyzer.analyze_scene_narrative`. -/
def analyzeSceneNarrative (apiKey : Option String)
    (net : String → Except String JValue) (sceneDescription : String)
    (previousScenes : List JValue) : Except String (JValue × Bool) := do
  let prompt ← createNarrativePrompt sceneDescription previousScenes
  let (response, called) := callGeminiApi apiKey net prompt
  pure (parseNarrativeAnalysis response, called)

/-- The response dict the Gemini endpoint wraps a reply text in:
`{"candidates": [{"content": {"parts": [{"text": t}]}}]}`. -/
def mkGeminiResponse (t : String) : JValue :=
  .obj [("candidates", .arr [.obj [("content",
    .obj [("parts", .arr [.obj [("text", .str t)]])])]])]

/-! ## `SceneValidatorTrigger.watch_directories` (trigger.py lines 67-114)

The directory/glob enumeration itself is the out-of-scope filesystem
primitive; its output (the candidate files of all configured directories and
include patterns, in scan order, with their modification times) is the
`candidates` argument.  The repository code then drops ignored paths, keeps
files modified strictly after the stored `last_check_time`, and finally
advances the cursor to `now`. -/

/-- A candidate file of one scan: its path and modification time. -/
structure WatchFile where
  path : String
  mtime : Int

/-- One scan of `watch_directories`: the reported files and the new cursor. -/
def watchDirectories (ignoreMatch : String → Bool) (candidates : List WatchFile)
    (lastCheckTime now : Int) : List WatchFile × Int :=
  (candidates.filter (fun f => !ignoreMatch f.path && decide (lastCheckTime < f.mtime)), now)

/-! ## Characterizations of the validator -/

/-- The error condition of the required-metadata loop: the field is absent
from the scene or bound to a falsy value. -/
def fieldMissing (fields : List (String × JValue)) (field : String) : Bool :=
  match dictGet fields field with
  | some v => !pyTruthy v
  | none => true

theorem sceneFold_spec (fields : List (String × JValue)) :
    ∀ (required : List String) (r : SceneResult),
    required.foldl (sceneCheckStep fields) r
      = { r with
          valid := r.valid && (required.filter (fieldMissing fields)).isEmpty
          errors := r.errors ++ (required.filter (fieldMissing fields)).map
            (fun f => "Missing required metadata: " ++ f) } := by
  intro required
  induction required with
  | nil => intro r; simp
  | cons f fs ih =>
      intro r
      rw [List.foldl_cons, ih]
      by_cases hm : fieldMissing fields f = true
      · have hstep : sceneCheckStep fields r f
            = { r with valid := false
                       errors := r.errors ++ ["Missing required metadata: " ++ f] } := by
          rw [sceneCheckStep]
          rw [fieldMissing] at hm
          split
          · next v hv =>
              rw [hv] at hm
              simp only [Bool.not_eq_true'] at hm
              rw [if_neg (by rw [hm]; simp)]
          · rfl
        rw [hstep, List.filter_cons_of_pos hm]
        simp [List.append_assoc]
      · have hm' : fieldMissing fields f = false := by
          simpa using hm
        have hstep : sceneCheckStep fields r f = r := by
          rw [sceneCheckStep]
          rw [fieldMissing] at hm'
          split
          · next v hv =>
              rw [hv] at hm'
              have hp : pyTruthy v = true := by simpa using hm'
              rw [if_pos hp]

          · next hv => rw [hv] at hm'; simp at hm'
        rw [hstep, List.filter_cons_of_neg (by simp [hm'])]

/-- Closed form of `validate_scene` on a dict. -/
theorem validateSceneObj_spec (required : List String) (now : String)
    (fields : List (String × JValue)) :
    validateSceneObj required now fields
      = { scene_id := dictGetD fields "scene_id" (.str "unknown")
          timestamp := now
          valid := (required.filter (fieldMissing fields)).isEmpty
          errors := (required.filter (fieldMissing fields)).map
            (fun f => "Missing required metadata: " ++ f)
          warnings := []
          suggestions := [] } := by
  rw [validateSceneObj, sceneFold_spec]
  simp

/-- Validate each scene of a list in order, stopping at the first raised
exception (the sequencing of the `validate_project` loop). -/
def validateAll (required : List String) (now : String) :
    List JValue → Except String (List SceneResult)
  | [] => .ok []
  | s :: rest =>
      match validateScene required now s with
      | .error e => .error e
      | .ok r =>
          match validateAll required now rest with
          | .error e => .error e
          | .ok rs => .ok (r :: rs)

theorem projectLoop_eq (required : List String) (now : String) :
    ∀ (scenes : List JValue) (acc : ProjectResult),
    projectLoop required now acc scenes
      = match validateAll required now scenes with
        | .error e => .error e
        | .ok results => .ok { acc with
            scene_results := acc.scene_results ++ results
            valid_scenes := acc.valid_scenes
              + (results.filter (fun r => r.valid)).length
            invalid_scenes := acc.invalid_scenes
              + (results.filter (fun r => !r.valid)).length } := by
  intro scenes
  induction scenes with
  | nil => intro acc; simp [projectLoop, validateAll]
  | cons s rest ih =>
      intro acc
      rw [projectLoop, validateAll]
      cases hv : validateScene required now s with
      | error e => rfl
      | ok r =>
          simp only [ih]
          cases hrest : validateAll required now rest with
          | error e => rfl
          | ok rs =>
              simp only [List.filter_cons, List.append_assoc, List.singleton_append]
              cases hrv : r.valid with
              | true => simp [hrv, Nat.add_assoc, Nat.add_comm]
              | false => simp [hrv, Nat.add_assoc, Nat.add_comm]
/-! ## Well-formedness of the result dicts -/

theorem filter_length_split {α : Type} (p : α → Bool) (l : List α) :
    (l.filter p).length + (l.filter (fun a => !p a)).length = l.length := by
  induction l with
  | nil => rfl
  | cons x xs ih =>
      cases hx : p x <;> simp [List.filter_cons, hx] <;> omega

theorem jwfArr_map_str (l : List String) : jwfArr (l.map JValue.str) = true := by
  induction l with
  | nil => rfl
  | cons x xs ih => simp [jwfArr, jwf, ih]

theorem jwfObj_dictGet {fs : List (String × JValue)} (h : jwfObj fs = true)
    {k : String} {v : JValue} (hv : dictGet fs k = some v) : jwf v = true := by
  induction fs with
  | nil => simp [dictGet] at hv
  | cons kv rest ih =>
      obtain ⟨k1, v1⟩ := kv
      obtain ⟨h1, h2⟩ := jwfObj_cons h
      rw [dictGet] at hv
      by_cases hk : k1 = k
      · rw [if_pos hk] at hv
        injection hv with hv
        exact hv ▸ h1
      · rw [if_neg hk] at hv
        exact ih h2 hv

theorem jwf_dictGetD {fs : List (String × JValue)} (h : jwfObj fs = true)
    (k : String) {d : JValue} (hd : jwf d = true) :
    jwf (dictGetD fs k d) = true := by
  rw [dictGetD]
  cases hg : dictGet fs k with
  | none => simpa using hd
  | some v => simpa using jwfObj_dictGet h hg

/-- A scene-result dict is well formed as soon as its `scene_id` value is. -/
theorem sceneResult_toJson_wf (r : SceneResult) (h : jwf r.scene_id = true) :
    jwf (SceneResult.toJson r) = true := by
  rw [SceneResult.toJson]
  simp [jwf, jwfObj, jwfArr_map_str, h]

/-- The scene-result dict of a validated scene object is well formed whenever
the scene itself was. -/
theorem validateSceneObj_toJson_wf (required : List String) (now : String)
    {fields : List (String × JValue)} (h : jwfObj fields = true) :
    jwf (SceneResult.toJson (validateSceneObj required now fields)) = true := by
  refine sceneResult_toJson_wf _ ?_
  rw [validateSceneObj_spec]
  exact jwf_dictGetD h "scene_id" rfl

/-- On a list of scene objects, the `validate_project` loop validates each
scene in order and never raises. -/
theorem validateAll_map_obj (required : List String) (now : String)
    (scenes : List (List (String × JValue))) :
    validateAll required now (scenes.map JValue.obj)
      = .ok (scenes.map (validateSceneObj required now)) := by
  induction scenes with
  | nil => rfl
  | cons s rest ih =>
      simp only [List.map_cons, validateAll, validateScene, ih]

theorem validateAll_results_wf (required : List String) (now : String) :
    ∀ (scenes : List JValue), jwfArr scenes = true →
    ∀ (rs : List SceneResult), validateAll required now scenes = .ok rs →
    ∀ r ∈ rs, jwf (SceneResult.toJson r) = true := by
  intro scenes
  induction scenes with
  | nil =>
      intro _ rs hrs
      rw [validateAll] at hrs
      injection hrs with hrs
      subst hrs
      intro r hr
      simp at hr
  | cons s rest ih =>
      intro hwf rs hrs
      obtain ⟨hs, hrest⟩ := jwfArr_cons hwf
      rw [validateAll] at hrs
      cases s with
      | obj fields =>
          rw [validateScene] at hrs
          cases hall : validateAll required now rest with
          | error e => rw [hall] at hrs; exact absurd hrs (by simp)
          | ok rs2 =>
              rw [hall] at hrs
              injection hrs with hrs
              subst hrs
              intro r hr
              rcases List.mem_cons.mp hr with hr | hr
              · subst hr
                exact validateSceneObj_toJson_wf required now (by simpa [jwf] using hs)
              · exact ih hrest rs2 hall r hr
      | null => exact absurd hrs (by simp [validateScene])
      | bool b => exact absurd hrs (by simp [validateScene])
      | int n => exact absurd hrs (by simp [validateScene])
      | dec m e => exact absurd hrs (by simp [validateScene])
      | str t => exact absurd hrs (by simp [validateScene])
      | arr xs => exact absurd hrs (by simp [validateScene])

theorem jwfArr_map_toJson {rs : List SceneResult}
    (h : ∀ r ∈ rs, jwf (SceneResult.toJson r) = true) :
    jwfArr (rs.map SceneResult.toJson) = true := by
  induction rs with
  | nil => rfl
  | cons r rest ih =>
      simp only [List.map_cons, jwfArr, Bool.and_eq_true]
      exact ⟨h r (by simp), ih (fun x hx => h x (by simp [hx]))⟩

/-- A project-result dict is well formed as soon as its `project_id` value and
its per-scene results are. -/
theorem projectResult_toJson_wf (p : ProjectResult)
    (h1 : jwf p.project_id = true)
    (h2 : jwfArr (p.scene_results.map SceneResult.toJson) = true) :
    jwf (ProjectResult.toJson p) = true := by
  rw [ProjectResult.toJson]
  simp [jwf, jwfObj, jwfArr_map_str, h1, h2]

/-- The project-result dict of `validate_project` is well formed whenever the
input scenes were. -/
theorem validateProject_toJson_wf (required : List String) (now : String)
    {scenes : List JValue} (hwf : jwfArr scenes = true)
    {p : ProjectResult} (h : validateProject required now scenes = .ok p) :
    jwf (ProjectResult.toJson p) = true := by
  rw [validateProject.eq_def] at h
  cases scenes with
  | nil =>
      simp only [projectLoop] at h
      injection h with h
      subst h
      rfl
  | cons first rest =>
      cases first with
      | obj ffs =>
          simp only [pyGetD, projectLoop_eq] at h
          cases hall : validateAll required now (JValue.obj ffs :: rest) with
          | error e => rw [hall] at h; exact absurd h (by simp)
          | ok rs =>
              rw [hall] at h
              injection h with h
              subst h
              obtain ⟨hs, _⟩ := jwfArr_cons hwf
              refine projectResult_toJson_wf _ ?_ ?_
              · exact jwf_dictGetD (by simpa [jwf] using hs) "project_id" rfl
              · simp only [List.nil_append]
                exact jwfArr_map_toJson
                  (validateAll_results_wf required now _ hwf rs hall)
      | null => exact absurd h (by simp [pyGetD])
      | bool b => exact absurd h (by simp [pyGetD])
      | int n => exact absurd h (by simp [pyGetD])
      | dec m e => exact absurd h (by simp [pyGetD])
      | str t => exact absurd h (by simp [pyGetD])
      | arr xs => exact absurd h (by simp [pyGetD])

theorem generateReport_json (v : JValue) :
    generateReport "json" v = .ok (dumps v) := by
  rw [generateReport]
  rfl
/-! ## Characterizations of the LLM client and the report renderer -/

/-- `_parse_dialogue_analysis` on a well-shaped API response reduces to the
first-`\x7b` / last-`\x7d` bracketing of the reply text. -/
theorem parseDialogueGo_mkResp (t : String) :
    parseDialogueGo (mkGeminiResponse t)
      = match List.findIdx? (· == '{') t.toList, lastIdxOf '}' t.toList with
        | some i, some j =>
            if i ≤ j then
              match loads ⟨(t.toList.drop i).take (j + 1 - i)⟩ with
              | some (.obj fs) => .ok (.obj (dictSet fs "success" (.bool true)))
              | some other => .error ("TypeError: " ++ pyTypeName other
                  ++ " object does not support item assignment")
              | none => .error "JSONDecodeError: could not decode the bracketed substring"
            else .ok (.obj [("success", .bool false),
                            ("error", .str "Could not extract JSON from response"),
                            ("raw_response", .str t)])
        | _, _ => .ok (.obj [("success", .bool false),
                             ("error", .str "Could not extract JSON from response"),
                             ("raw_response", .str t)]) := rfl

theorem lastFive_map {α β : Type} (g : α → β) (l : List α) :
    lastFive (l.map g) = (lastFive l).map g := by
  rw [lastFive, lastFive, List.length_map, List.map_drop]

theorem emotionItems_ok (l : List (List (String × JValue))) :
    ∃ items, ((l.map JValue.obj).mapM (fun e => do
      let sid ← pyGetD e "scene_id" (JValue.str "unknown")
      let emo ← pyGetD e "emotion" JValue.null
      let ctx ← pyGetD e "context" (JValue.str "N/A")
      pure ("- Scene " ++ pyStr sid ++ ": " ++ pyStr emo ++ " - Context: " ++ pyStr ctx)))
      = Except.ok items := by
  induction l with
  | nil => exact ⟨[], rfl⟩
  | cons x xs ih =>
      obtain ⟨items, hitems⟩ := ih
      refine ⟨("- Scene " ++ pyStr (dictGetD x "scene_id" (JValue.str "unknown")) ++ ": "
          ++ pyStr (dictGetD x "emotion" JValue.null) ++ " - Context: "
          ++ pyStr (dictGetD x "context" (JValue.str "N/A"))) :: items, ?_⟩
      rw [List.map_cons, List.mapM_cons, hitems]
      rfl

theorem narrativeItems_ok (l : List (List (String × JValue))) :
    ∃ items, ((l.map JValue.obj).mapM (fun s => do
      let sid ← pyGetD s "scene_id" (JValue.str "unknown")
      let brief ← pyGetD s "brief_description" (JValue.str "N/A")
      pure ("- Scene " ++ pyStr sid ++ ": " ++ pyStr brief)))
      = Except.ok items := by
  induction l with
  | nil => exact ⟨[], rfl⟩
  | cons x xs ih =>
      obtain ⟨items, hitems⟩ := ih
      refine ⟨("- Scene " ++ pyStr (dictGetD x "scene_id" (JValue.str "unknown")) ++ ": "
          ++ pyStr (dictGetD x "brief_description" (JValue.str "N/A"))) :: items, ?_⟩
      rw [List.map_cons, List.mapM_cons, hitems]
      rfl

/-- `_create_emotion_prompt` never raises when every history entry is a
dict. -/
theorem createEmotionPrompt_ok (c e : String) (l : List (List (String × JValue))) :
    ∃ s, createEmotionPrompt c e (l.map JValue.obj) = .ok s := by
  rw [createEmotionPrompt.eq_def, lastFive_map]
  obtain ⟨items, hitems⟩ := emotionItems_ok (lastFive l)
  rw [hitems]
  exact ⟨_, rfl⟩

/-- `_create_narrative_prompt` never raises when every history entry is a
dict. -/
theorem createNarrativePrompt_ok (d : String) (l : List (List (String × JValue))) :
    ∃ s, createNarrativePrompt d (l.map JValue.obj) = .ok s := by
  rw [createNarrativePrompt.eq_def, lastFive_map]
  obtain ⟨items, hitems⟩ := narrativeItems_ok (lastFive l)
  rw [hitems]
  exact ⟨_, rfl⟩

set_option maxRecDepth 10000 in
/-- Whatever values the renderer passes for the template's seven named
fields, `str.format` trips over the template's first unescaped CSS brace
and raises `KeyError(" font-family")`. -/
theorem pyFormat_htmlTemplate (v1 v2 v3 v4 v5 v6 v7 : JValue) :
    pyFormat [("project_id", v1), ("timestamp", v2), ("scene_count", v3),
              ("valid_scenes", v4), ("invalid_scenes", v5),
              ("scene_results", v6), ("project_issues", v7)] htmlTemplate
      = .error "KeyError:  font-family" := rfl
/-! ## The claims -/

/-- C1: for every rules value (its `required_metadata` list) and every scene
object, `validate_scene` returns a result whose errors list has exactly one
`"Missing required metadata: <field>"` entry for each required field that is
absent from the scene or bound to a falsy value, in the order the fields
appear in `required_metadata`, and whose valid flag is true iff errors is
empty. -/
theorem C1_required_metadata_errors (required : List String) (now : String)
    (fields : List (String × JValue)) :
    validateScene required now (.obj fields)
      = .ok { scene_id := dictGetD fields "scene_id" (.str "unknown")
              timestamp := now
              valid := (required.filter (fieldMissing fields)).isEmpty
              errors := (required.filter (fieldMissing fields)).map
                (fun f => "Missing required metadata: " ++ f)
              warnings := []
              suggestions := [] }
    ∧ (∀ f, fieldMissing fields f = true
         ↔ (dictGet fields f = none
            ∨ ∃ v, dictGet fields f = some v ∧ pyTruthy v = false))
    ∧ (∀ r, validateScene required now (.obj fields) = .ok r →
         (r.valid = true ↔ r.errors = [])) := by
  refine ⟨by rw [validateScene, validateSceneObj_spec], ?_, ?_⟩
  · intro f
    rw [fieldMissing]
    cases hg : dictGet fields f with
    | none => simp
    | some v => cases hv : pyTruthy v <;> simp [hv]
  · intro r hr
    rw [validateScene, validateSceneObj_spec] at hr
    injection hr with hr
    subst hr
    simp [List.isEmpty_iff]

/-- C2: on a list of scene objects, `validate_project` returns a result with
`scene_count` the length of the input, `scene_results` validating each input
scene in order, `valid_scenes + invalid_scenes = scene_count`; on the empty
list everything is zero and the project id is `"unknown"`. -/
theorem C2_project_tallies (required : List String) (now : String)
    (scenes : List (List (String × JValue))) :
    ∃ p, validateProject required now (scenes.map JValue.obj) = .ok p
      ∧ p.scene_count = scenes.length
      ∧ p.scene_results = scenes.map (validateSceneObj required now)
      ∧ p.scene_results.length = p.scene_count
      ∧ p.valid_scenes + p.invalid_scenes = p.scene_count
      ∧ (scenes = [] → p = ProjectResult.mk (.str "unknown") now 0 0 0 [] []) := by
  cases scenes with
  | nil => exact ⟨_, rfl, rfl, rfl, rfl, rfl, fun _ => rfl⟩
  | cons s ss =>
      have h := projectLoop_eq required now ((s :: ss).map JValue.obj)
        { project_id := dictGetD s "project_id" (.str "unknown")
          timestamp := now
          scene_count := ((s :: ss).map JValue.obj).length
          valid_scenes := 0
          invalid_scenes := 0
          scene_results := []
          project_level_issues := [] }
      rw [validateAll_map_obj] at h
      refine ⟨{ project_id := dictGetD s "project_id" (.str "unknown")
                timestamp := now
                scene_count := (s :: ss).length
                valid_scenes := (((s :: ss).map (validateSceneObj required now)).filter (fun r => r.valid)).length
                invalid_scenes := (((s :: ss).map (validateSceneObj required now)).filter (fun r => !r.valid)).length
                scene_results := (s :: ss).map (validateSceneObj required now)
                project_level_issues := [] }, ?_, rfl, rfl, by simp, ?_, ?_⟩
      · have hdef : validateProject required now ((s :: ss).map JValue.obj)
            = projectLoop required now
              { project_id := dictGetD s "project_id" (.str "unknown")
                timestamp := now
                scene_count := ((s :: ss).map JValue.obj).length
                valid_scenes := 0
                invalid_scenes := 0
                scene_results := []
                project_level_issues := [] } ((s :: ss).map JValue.obj) := rfl
        rw [hdef, h]
        simp
      · simpa using filter_length_split (fun r => r.valid)
          ((s :: ss).map (validateSceneObj required now))
      · intro heq
        exact absurd heq (by simp)

/-- C3 (corrected): contrary to the spec, a non-dict input does not yield an
all-errors result: `validate_scene`'s first statement calls `.get` on it, so
every non-dict input raises `AttributeError`. -/
theorem C3_nondict_attribute_error (required : List String) (now : String)
    (v : JValue) (h : ∀ fields, v ≠ .obj fields) :
    validateScene required now v
      = .error ("AttributeError: " ++ pyTypeName v
          ++ " object has no attribute get") := by
  cases v with
  | obj fields => exact absurd rfl (h fields)
  | null => rfl
  | bool b => rfl
  | int n => rfl
  | dec m e => rfl
  | str s => rfl
  | arr xs => rfl

/-- C3 witness: a list input raises `AttributeError`. -/
theorem C3_nondict_attribute_error_witness :
    validateScene ["scene_id"] "2025-01-01T00:00:00"
        (.arr [.obj [("scene_id", .str "S1")]])
      = .error ("AttributeError: "
          ++ pyTypeName (.arr [.obj [("scene_id", .str "S1")]])
          ++ " object has no attribute get") :=
  C3_nondict_attribute_error ["scene_id"] "2025-01-01T00:00:00"
    (.arr [.obj [("scene_id", .str "S1")]]) (fun fields hf => by cases hf)

/-- C3 counterexample: on a string input `validate_scene` raises instead of
returning the all-errors result the spec promises. -/
theorem C3_counterexample :
    validateScene ["scene_id"] "2025-01-01T00:00:00" (.str "not a dict")
      = .error "AttributeError: str object has no attribute get" := rfl

/-- C4 (corrected): all result fields except `timestamp` are a function of
the scene and the rules alone, and `timestamp` is the wall-clock time of the
call, so two calls with identical input at different times differ. -/
theorem C4_result_depends_on_clock (required : List String) (now1 now2 : String)
    (v : JValue) :
    (validateScene required now1 v).map (fun r => { r with timestamp := "" })
      = (validateScene required now2 v).map (fun r => { r with timestamp := "" })
    ∧ (∀ r, validateScene required now1 v = .ok r → r.timestamp = now1) := by
  constructor
  · cases v with
    | obj fields =>
        rw [validateScene, validateScene, validateSceneObj_spec, validateSceneObj_spec]
        simp [Except.map]
    | null => rfl
    | bool b => rfl
    | int n => rfl
    | dec m e => rfl
    | str s => rfl
    | arr xs => rfl
  · intro r hr
    cases v with
    | obj fields =>
        rw [validateScene, validateSceneObj_spec] at hr
        injection hr with hr
        rw [← hr]
    | null => exact absurd hr (by simp [validateScene])
    | bool b => exact absurd hr (by simp [validateScene])
    | int n => exact absurd hr (by simp [validateScene])
    | dec m e => exact absurd hr (by simp [validateScene])
    | str s => exact absurd hr (by simp [validateScene])
    | arr xs => exact absurd hr (by simp [validateScene])

/-- C4 counterexample: the same scene and rules validated at two different
wall-clock instants give different results (the timestamps differ), so the
result is not a function of input and rules alone. -/
theorem C4_counterexample :
    validateScene ["scene_id"] "2025-01-01T00:00:00" (.obj [("scene_id", .str "S1")])
      ≠ validateScene ["scene_id"] "2025-01-02T00:00:00" (.obj [("scene_id", .str "S1")]) := by
  intro h
  have ht := congrArg (fun x : Except String SceneResult =>
    match x with | .ok r => r.timestamp | .error e => e) h
  exact absurd ht (by decide)
/-- C5: the LLM client's response parsing takes the reply text and locates
the first `\x7b` and the last `\x7d`; when both exist with the first before
the last it parses that substring as JSON and returns the parsed object with
`success:true` added; when the bracketed substring fails to parse it returns
a failure record with `success:false`, an error string and the raw response
attached; and when no such brace pair exists it returns the failure record
carrying the raw reply text. -/
theorem C5_parse_first_last_brace (t u w : String) (i j iw jw : Nat)
    (fs : List (String × JValue))
    (hi : List.findIdx? (fun c => c == '{') t.toList = some i)
    (hj : lastIdxOf '}' t.toList = some j)
    (hij : i ≤ j)
    (hp : loads ⟨(t.toList.drop i).take (j + 1 - i)⟩ = some (.obj fs))
    (hu : List.findIdx? (fun c => c == '{') u.toList = none
          ∨ lastIdxOf '}' u.toList = none
          ∨ (∃ iu ju, List.findIdx? (fun c => c == '{') u.toList = some iu
              ∧ lastIdxOf '}' u.toList = some ju ∧ ju < iu))
    (hwi : List.findIdx? (fun c => c == '{') w.toList = some iw)
    (hwj : lastIdxOf '}' w.toList = some jw)
    (hwij : iw ≤ jw)
    (hwp : loads ⟨(w.toList.drop iw).take (jw + 1 - iw)⟩ = none) :
    parseDialogueAnalysis (mkGeminiResponse t)
      = .obj (dictSet fs "success" (.bool true))
    ∧ parseDialogueAnalysis (mkGeminiResponse u)
      = .obj [("success", .bool false),
              ("error", .str "Could not extract JSON from response"),
              ("raw_response", .str u)]
    ∧ parseDialogueAnalysis (mkGeminiResponse w)
      = .obj [("success", .bool false),
              ("error", .str "JSONDecodeError: could not decode the bracketed substring"),
              ("raw_response", mkGeminiResponse w)] := by
  refine ⟨?_, ?_, ?_⟩
  · have h1 : parseDialogueGo (mkGeminiResponse t)
        = .ok (.obj (dictSet fs "success" (.bool true))) := by
      rw [parseDialogueGo_mkResp, hi, hj]
      simp only [if_pos hij, hp]
    rw [parseDialogueAnalysis, h1]
  · have h2 : parseDialogueGo (mkGeminiResponse u)
        = .ok (.obj [("success", .bool false),
                     ("error", .str "Could not extract JSON from response"),
                     ("raw_response", .str u)]) := by
      rw [parseDialogueGo_mkResp]
      rcases hu with hu | hu | ⟨iu, ju, h1u, h2u, hlt⟩
      · rw [hu]
      · cases hfi : List.findIdx? (fun c => c == '{') u.toList with
        | none => rfl
        | some i2 => rw [hu]
      · rw [h1u, h2u]
        simp only [if_neg (by omega : ¬ iu ≤ ju)]
    rw [parseDialogueAnalysis, h2]
  · have h3 : parseDialogueGo (mkGeminiResponse w)
        = .error "JSONDecodeError: could not decode the bracketed substring" := by
      rw [parseDialogueGo_mkResp, hwi, hwj]
      simp only [if_pos hwij, hwp]
    rw [parseDialogueAnalysis, h3]

set_option maxHeartbeats 1000000 in
/-- C5 witness: the spec's example reply text parses to the bracketed JSON
object plus `success:true`, a brace-free reply yields the failure record
with the reply text, and a reply whose bracketed substring is not JSON
yields the failure record with the raw response. -/
theorem C5_parse_first_last_brace_witness :
    parseDialogueAnalysis (mkGeminiResponse
        "blah \x7b\"is_consistent\": true, \"confidence_score\": 0.9\x7d trailing")
      = .obj (dictSet [("is_consistent", .bool true), ("confidence_score", .dec 9 1)]
          "success" (.bool true))
    ∧ parseDialogueAnalysis (mkGeminiResponse "no braces at all")
      = .obj [("success", .bool false),
              ("error", .str "Could not extract JSON from response"),
              ("raw_response", .str "no braces at all")]
    ∧ parseDialogueAnalysis (mkGeminiResponse "oops \x7bbad\x7d")
      = .obj [("success", .bool false),
              ("error", .str "JSONDecodeError: could not decode the bracketed substring"),
              ("raw_response", mkGeminiResponse "oops \x7bbad\x7d")] :=
  C5_parse_first_last_brace
    "blah \x7b\"is_consistent\": true, \"confidence_score\": 0.9\x7d trailing"
    "no braces at all" "oops \x7bbad\x7d" 5 52 5 9
    [("is_consistent", .bool true), ("confidence_score", .dec 9 1)]
    rfl rfl (by omega)
    (by simp [loads, loadVal, loadObjItems, loadArrItems, strBody, dropWs, wsChar, numToken,
      numTokenBody, grabDigits, isDigitCh, digitsVal])
    (Or.inl rfl)
    rfl rfl (by omega)
    (by simp [loads, loadVal, loadObjItems, loadArrItems, strBody, dropWs, wsChar, numToken,
      numTokenBody, grabDigits, isDigitCh, digitsVal])

/-- C6: with no credential configured (no key passed and the environment
variable unset or empty), all three analysis operations return the
`success:false` / `"No API key provided"` record and the network oracle is
never consulted. -/
theorem C6_no_key_short_circuits (passed env : Option String)
    (hpass : passed = none ∨ passed = some "")
    (henv : env = none ∨ env = some "")
    (net : String → Except String JValue)
    (character dlg emo desc : String) (prevD : List String)
    (prevE prevS : List (List (String × JValue))) :
    analyzeDialogueConsistency (geminiApiKey passed env) net character dlg prevD
      = (.obj [("success", .bool false), ("error", .str "No API key provided")], false)
    ∧ analyzeEmotionalContinuity (geminiApiKey passed env) net character emo
        (prevE.map JValue.obj)
      = .ok (.obj [("success", .bool false), ("error", .str "No API key provided")], false)
    ∧ analyzeSceneNarrative (geminiApiKey passed env) net desc
        (prevS.map JValue.obj)
      = .ok (.obj [("success", .bool false), ("error", .str "No API key provided")], false) := by
  have hkey : keyTruthy (geminiApiKey passed env) = false := by
    rcases hpass with hp | hp <;> rcases henv with he | he <;> subst hp <;> subst he <;> rfl
  have hcall : ∀ prompt, callGeminiApi (geminiApiKey passed env) net prompt
      = (.obj [("error", .str "No API key provided")], false) := by
    intro prompt
    rw [callGeminiApi, hkey]
    rfl
  refine ⟨?_, ?_, ?_⟩
  · rw [analyzeDialogueConsistency, hcall]
    rfl
  · obtain ⟨s, hs⟩ := createEmotionPrompt_ok character emo prevE
    rw [analyzeEmotionalContinuity, hs]
    simp only [hcall]
    rfl
  · obtain ⟨s, hs⟩ := createNarrativePrompt_ok desc prevS
    rw [analyzeSceneNarrative, hs]
    simp only [hcall]
    rfl

/-- C6 witness: the short circuit at concrete inputs. -/
theorem C6_no_key_short_circuits_witness :
    analyzeDialogueConsistency (geminiApiKey none none) (fun _ => .ok .null)
        "Alice" "Hi there" ["Hello"]
      = (.obj [("success", .bool false), ("error", .str "No API key provided")], false)
    ∧ analyzeEmotionalContinuity (geminiApiKey none none) (fun _ => .ok .null)
        "Alice" "happy" ([[("scene_id", .str "S1"), ("emotion", .str "sad")]].map JValue.obj)
      = .ok (.obj [("success", .bool false), ("error", .str "No API key provided")], false)
    ∧ analyzeSceneNarrative (geminiApiKey none none) (fun _ => .ok .null)
        "A chase" ([[("scene_id", .str "S1")]].map JValue.obj)
      = .ok (.obj [("success", .bool false), ("error", .str "No API key provided")], false) :=
  C6_no_key_short_circuits none none (Or.inl rfl) (Or.inl rfl) (fun _ => .ok .null)
    "Alice" "Hi there" "happy" "A chase" ["Hello"]
    [[("scene_id", .str "S1"), ("emotion", .str "sad")]] [[("scene_id", .str "S1")]]

/-- C7: a configured report format whose lowercase form is neither `"html"`
nor `"json"` raises no error and produces exactly the `"json"`-format
output, the pretty-printed JSON serialization of the result. -/
theorem C7_unknown_format_degrades (fmt : String) (v : JValue)
    (h1 : strLower fmt ≠ "html") (h2 : strLower fmt ≠ "json") :
    generateReport fmt v = generateReport "json" v
    ∧ generateReport fmt v = .ok (dumps v) := by
  have hf : generateReport fmt v = .ok (dumps v) := by
    show (if strLower fmt = "html" then htmlReport v
          else if strLower fmt = "json" then .ok (dumps v) else .ok (dumps v)) = .ok (dumps v)
    rw [if_neg h1, if_neg h2]
  exact ⟨hf.trans (generateReport_json v).symm, hf⟩

/-- C7 witness: the `"xml"` format degrades to the JSON output. -/
theorem C7_unknown_format_degrades_witness :
    generateReport "xml" (.obj [("valid", .bool true)])
      = generateReport "json" (.obj [("valid", .bool true)])
    ∧ generateReport "xml" (.obj [("valid", .bool true)])
      = .ok (dumps (.obj [("valid", .bool true)])) :=
  C7_unknown_format_degrades "xml" (.obj [("valid", .bool true)])
    (by decide) (by decide)

/-- C8: for results of `validate_scene` and `validate_project` (on
well-formed input), the `"json"`-format report is the serialized result and
parsing it back yields a structure equal to the result. -/
theorem C8_json_report_roundtrip (required : List String) (now : String)
    (fields : List (String × JValue)) (scenes : List JValue)
    (r : SceneResult) (p : ProjectResult)
    (hwfs : jwf (.obj fields) = true)
    (hwfp : jwfArr scenes = true)
    (hr : validateScene required now (.obj fields) = .ok r)
    (hpp : validateProject required now scenes = .ok p) :
    generateReport "json" (SceneResult.toJson r) = .ok (dumps (SceneResult.toJson r))
    ∧ loads (dumps (SceneResult.toJson r)) = some (SceneResult.toJson r)
    ∧ generateReport "json" (ProjectResult.toJson p) = .ok (dumps (ProjectResult.toJson p))
    ∧ loads (dumps (ProjectResult.toJson p)) = some (ProjectResult.toJson p) := by
  have hr2 : r = validateSceneObj required now fields := by
    rw [validateScene] at hr
    injection hr with hr
    exact hr.symm
  refine ⟨generateReport_json _, ?_, generateReport_json _, ?_⟩
  · apply loads_dumps
    rw [hr2]
    exact validateSceneObj_toJson_wf required now (by simpa [jwf] using hwfs)
  · exact loads_dumps _ (validateProject_toJson_wf required now hwfp hpp)

/-- C8 witness: the round trip at a concrete scene and project. -/
theorem C8_json_report_roundtrip_witness :
    generateReport "json" (SceneResult.toJson (SceneResult.mk (.str "S1") "t" false
        ["Missing required metadata: location"] [] []))
      = .ok (dumps (SceneResult.toJson (SceneResult.mk (.str "S1") "t" false
        ["Missing required metadata: location"] [] [])))
    ∧ loads (dumps (SceneResult.toJson (SceneResult.mk (.str "S1") "t" false
        ["Missing required metadata: location"] [] [])))
      = some (SceneResult.toJson (SceneResult.mk (.str "S1") "t" false
        ["Missing required metadata: location"] [] []))
    ∧ generateReport "json" (ProjectResult.toJson (ProjectResult.mk (.str "unknown") "t" 1 0 1
        [SceneResult.mk (.str "S1") "t" false ["Missing required metadata: location"] [] []] []))
      = .ok (dumps (ProjectResult.toJson (ProjectResult.mk (.str "unknown") "t" 1 0 1
        [SceneResult.mk (.str "S1") "t" false ["Missing required metadata: location"] [] []] [])))
    ∧ loads (dumps (ProjectResult.toJson (ProjectResult.mk (.str "unknown") "t" 1 0 1
        [SceneResult.mk (.str "S1") "t" false ["Missing required metadata: location"] [] []] [])))
      = some (ProjectResult.toJson (ProjectResult.mk (.str "unknown") "t" 1 0 1
        [SceneResult.mk (.str "S1") "t" false ["Missing required metadata: location"] [] []] []))
    :=
  C8_json_report_roundtrip ["scene_id", "location"] "t" [("scene_id", .str "S1")]
    [.obj [("scene_id", .str "S1")]]
    (SceneResult.mk (.str "S1") "t" false ["Missing required metadata: location"] [] [])
    (ProjectResult.mk (.str "unknown") "t" 1 0 1
      [SceneResult.mk (.str "S1") "t" false ["Missing required metadata: location"] [] []] [])
    (by simp [jwf, jwfObj]) (by simp [jwfArr, jwf, jwfObj]) rfl rfl

/-- C9: a scan of the directory watcher reports exactly the non-ignored
candidate files whose modification time is strictly after the previous
cursor, and advances the cursor to the scan time regardless; hence a file
whose modification time stays at or before the first scan's end time is
never reported by the following scan. -/
theorem C9_watch_cursor (ignoreMatch : String → Bool)
    (cands1 cands2 : List WatchFile) (last t1 t2 : Int) (f : WatchFile)
    (hf : f.mtime ≤ t1) :
    (watchDirectories ignoreMatch cands1 last t1).2 = t1
    ∧ (∀ g ∈ (watchDirectories ignoreMatch cands1 last t1).1,
        ignoreMatch g.path = false ∧ last < g.mtime)
    ∧ f ∉ (watchDirectories ignoreMatch cands2
        ((watchDirectories ignoreMatch cands1 last t1).2) t2).1 := by
  refine ⟨rfl, ?_, ?_⟩
  · intro g hg
    rw [watchDirectories] at hg
    have hmem := (List.mem_filter.mp hg).2
    simp only [Bool.and_eq_true, Bool.not_eq_true', decide_eq_true_eq] at hmem
    exact hmem
  · intro hmem
    have hc : (watchDirectories ignoreMatch cands1 last t1).2 = t1 := rfl
    rw [hc, watchDirectories] at hmem
    have h2 := (List.mem_filter.mp hmem).2
    simp only [Bool.and_eq_true, Bool.not_eq_true', decide_eq_true_eq] at h2
    omega

/-- C9 witness: a file modified before the first scan ends is reported by at
most that scan. -/
theorem C9_watch_cursor_witness :
    (watchDirectories (fun _ => false) [WatchFile.mk "data/scenes/a.json" 5] 0 10).2 = 10
    ∧ (∀ g ∈ (watchDirectories (fun _ => false) [WatchFile.mk "data/scenes/a.json" 5] 0 10).1,
        (fun _ => false) g.path = false ∧ 0 < g.mtime)
    ∧ WatchFile.mk "data/scenes/a.json" 5 ∉ (watchDirectories (fun _ => false)
        [WatchFile.mk "data/scenes/a.json" 5]
        ((watchDirectories (fun _ => false) [WatchFile.mk "data/scenes/a.json" 5] 0 10).2) 20).1 :=
  C9_watch_cursor (fun _ => false) [WatchFile.mk "data/scenes/a.json" 5]
    [WatchFile.mk "data/scenes/a.json" 5] 0 10 20 (WatchFile.mk "data/scenes/a.json" 5)
    (by decide)

set_option maxRecDepth 10000 in
/-- C10 (code bug): rendering the HTML report of a single-scene result never
produces the described page at all: the template's unescaped CSS braces make
`str.format` raise `KeyError(" font-family")` on every input, so the CLI and
trigger paths that request an HTML report always fail. -/
theorem C10_html_report_raises (r : SceneResult) :
    generateReport "html" (SceneResult.toJson r) = .error "KeyError:  font-family" :=
  pyFormat_htmlTemplate (.str "Unknown") (.str r.timestamp) (.int 0) (.int 0) (.int 0)
    (.str "") (.str "")
